import Mathlib

/-! Package `flow` of vhs: modifier chains, sequential close, flow grammar.

A shallow embedding of `flow/modifiers.go` and `flow/parser.go`.

* Go functions with side effects (interface methods, registry constructors)
  are functions `W → result × W` on an arbitrary world type `W`.
* Every call the package makes into foreign code is recorded, in order, in a
  call log carried next to the world (`St`).
* A Go call ends in one of three ways, `Result`: a value, a non-nil `error`,
  or a run-time panic (index or slice bounds out of range).
* Foreign code is assumed to return: a constructor, `Wrap` or `Close` that
  panics or does not terminate is outside the model.
-/

namespace flow

/-! ## Go values shared by both files -/

/-- A non-nil Go `error`: its `Error()` text and, for an error built with the
`%w` verb, the error it wraps. Stack traces are not modelled. -/
inductive GoError where
  | leaf (msg : String)
  | wrap (msg : String) (inner : GoError)
  deriving DecidableEq, Repr

/-- Method `Error()` of an `error`. -/
def GoError.Error : GoError → String
  | .leaf msg => msg
  | .wrap msg _ => msg

/-- Function `errors.Unwrap`: the error wrapped with `%w`, if any. -/
def GoError.Unwrap : GoError → Option GoError
  | .leaf _ => none
  | .wrap _ inner => some inner

/-- The call `fmt.Errorf(fmtText + "%w", err)`: the text is `fmtText` followed
by `err.Error()`, and the result wraps `err`. -/
def fmtErrorfW (fmtText : String) (err : GoError) : GoError :=
  .wrap (fmtText ++ err.Error) err

/-- The call `errors.New(text)` of go-errors. -/
def errorsNew (text : String) : GoError := .leaf text

/-- The call `errors.Errorf(fmtText + "%s", arg)` of go-errors. -/
def errorsErrorfS (fmtText : String) (arg : String) : GoError :=
  .leaf (fmtText ++ arg)

/-- The call `errors.Errorf(fmtText + "%v", err)` of go-errors: the verb
`%v` prints `err.Error()` and wraps nothing. -/
def errorsErrorfV (fmtText : String) (err : GoError) : GoError :=
  .leaf (fmtText ++ err.Error)

/-- How a Go call of result type `(T, error)` ends. -/
inductive Result (α : Type) where
  | ok (a : α)
  | err (e : GoError)
  | panic (msg : String)
  deriving DecidableEq

/-- The world together with the log of calls made so far (oldest first). -/
structure St (W E : Type) where
  world : W
  calls : List E
  deriving DecidableEq

/-! ## modifiers.go -/

/-- One interface-method call made by the functions of `modifiers.go`. -/
inductive Call (S : Type) where
  /-- The call `is[i].Wrap(s)`. -/
  | wrap (i : Nat) (s : S)
  /-- The call `s.Close()`. -/
  | close (s : S)

/-- Interface `InputModifier` over readers of type `R`: method `Wrap`. -/
structure InputModifier (W R : Type) where
  Wrap : R → W → Except GoError R × W

/-- Interface `OutputModifier` over writers of type `R`: method `Wrap`. -/
structure OutputModifier (W R : Type) where
  Wrap : R → W → Except GoError R × W

/-- The type `InputModifiers`, a slice of `InputModifier`. -/
abbrev InputModifiers (W R : Type) := List (InputModifier W R)

/-- The type `OutputModifiers`, a slice of `OutputModifier`. -/
abbrev OutputModifiers (W R : Type) := List (OutputModifier W R)

/-- The loop of `InputModifiers.Wrap`, entered with `i = k - 1`:
`k = 0` is the exit `i < 0`, and `k + 1` runs the body at index `k`. -/
def InputModifiers.wrapLoop {W R : Type} (is : InputModifiers W R) :
    Nat → R → St W (Call R) → Result R × St W (Call R)
  | 0, r, st => (.ok r, st)
  | k + 1, r, st =>
    match is[k]? with
    | none => (.panic "index out of range", st)
    | some m =>
      match m.Wrap r st.world with
      | (.error err, w) =>
        (.err (fmtErrorfW "failed to wrap input writer: " err),
          ⟨w, st.calls ++ [Call.wrap k r]⟩)
      | (.ok r1, w) => InputModifiers.wrapLoop is k r1 ⟨w, st.calls ++ [Call.wrap k r]⟩

/-- Method `InputModifiers.Wrap`. -/
def InputModifiers.Wrap {W R : Type} (is : InputModifiers W R) (r : R)
    (st : St W (Call R)) : Result R × St W (Call R) :=
  InputModifiers.wrapLoop is is.length r st

/-- The loop of `OutputModifiers.Wrap`, entered with `i = k - 1`; on exit the
method returns `w, err` where `err` is the nil error of the last iteration. -/
def OutputModifiers.wrapLoop {W R : Type} (os : OutputModifiers W R) :
    Nat → R → St W (Call R) → Result R × St W (Call R)
  | 0, w, st => (.ok w, st)
  | k + 1, w, st =>
    match os[k]? with
    | none => (.panic "index out of range", st)
    | some m =>
      match m.Wrap w st.world with
      | (.error err, wd) =>
        (.err (fmtErrorfW "failed to wrap output writer: " err),
          ⟨wd, st.calls ++ [Call.wrap k w]⟩)
      | (.ok w1, wd) => OutputModifiers.wrapLoop os k w1 ⟨wd, st.calls ++ [Call.wrap k w]⟩

/-- Method `OutputModifiers.Wrap`. -/
def OutputModifiers.Wrap {W R : Type} (os : OutputModifiers W R) (w : R)
    (st : St W (Call R)) : Result R × St W (Call R) :=
  OutputModifiers.wrapLoop os os.length w st

/-- Interface `io.Closer`: method `Close`, returning nil (`none`) or an error. -/
structure Closer (W : Type) where
  Close : W → Option GoError × W

/-- Function `CloseSequentially(a, b)`; `b` is `none` for a nil interface. -/
def CloseSequentially {W : Type} (a : Closer W) (b : Option (Closer W))
    (st : St W (Call (Closer W))) : Option GoError × St W (Call (Closer W)) :=
  match a.Close st.world with
  | (some err, w) => (some err, ⟨w, st.calls ++ [Call.close a]⟩)
  | (none, w) =>
    match b with
    | some bc =>
      match bc.Close w with
      | (res, w1) => (res, ⟨w1, st.calls ++ [Call.close a] ++ [Call.close bc]⟩)
    | none => (none, ⟨w, st.calls ++ [Call.close a]⟩)

/-! ## parser.go -/

/-- The constant `Separator`, the one-character string `"|"`. -/
def Separator : Char := '|'

/-- Pieces of a character sequence between the occurrences of `sep`. -/
def splitChars (sep : Char) : List Char → List (List Char)
  | [] => [[]]
  | c :: cs =>
    if c = sep then [] :: splitChars sep cs
    else
      match splitChars sep cs with
      | [] => [[c]]
      | piece :: pieces => (c :: piece) :: pieces

/-- The call `strings.Split(s, sep)` for a separator of one character: the
substrings between the separators, in order, `[s]` when there is none. -/
def stringsSplit (s : String) (sep : Char) : List String :=
  (splitChars sep s.data).map String.mk

/-- The slice expression `xs[lo:hi]`, which panics (`none`) unless
`lo ≤ hi ≤ len(xs)`. -/
def goSlice {α : Type} (xs : List α) (lo hi : Nat) : Option (List α) :=
  if lo ≤ hi ∧ hi ≤ xs.length then some ((xs.take hi).drop lo) else none

/-- One registry-constructor call made by the parser: the table the
constructor was found in and the token it was found under. -/
inductive CtorCall where
  | source (name : String)
  | inputModifier (name : String)
  | inputFormat (name : String)
  | outputFormat (name : String)
  | outputModifier (name : String)
  | sink (name : String)
  deriving DecidableEq, Repr

/-- A registry constructor `func(*session.Context) (T, error)`. -/
abbrev Ctor (Ctx W α : Type) := Ctx → W → Except GoError α × W

/-- The struct `Parser`: six tables from names to constructors; a Go map
lookup `m[key]` is `none` when `ok` is false. -/
structure Parser (Ctx W Src IMod IFmt OFmt OMod Snk : Type) where
  Sources : String → Option (Ctor Ctx W Src)
  InputModifiers : String → Option (Ctor Ctx W IMod)
  InputFormats : String → Option (Ctor Ctx W IFmt)
  OutputFormats : String → Option (Ctor Ctx W OFmt)
  OutputModifiers : String → Option (Ctor Ctx W OMod)
  Sinks : String → Option (Ctor Ctx W Snk)

/-- Modelled from the spec: the struct `pipe.Input` (package `pipe` is not
among the sources), the read side's descriptor with one source, an ordered
sequence of input modifiers and one input format. -/
structure Input (Src IMod IFmt : Type) where
  Source : Src
  Modifiers : List IMod
  Format : IFmt
  deriving DecidableEq

/-- Modelled from the spec: the struct `pipe.Output` (package `pipe` is not
among the sources), the write side's descriptor with one output format, an
ordered sequence of output modifiers and one sink. -/
structure Output (OFmt OMod Snk : Type) where
  Format : OFmt
  Modifiers : List OMod
  Sink : Snk
  deriving DecidableEq

/-- Modelled from the spec: the function `pipe.NewInput(s, mis, f)`, which
stores its three arguments in a new `pipe.Input`. -/
def NewInput {Src IMod IFmt : Type} (s : Src) (mis : List IMod) (f : IFmt) :
    Input Src IMod IFmt :=
  { Source := s, Modifiers := mis, Format := f }

/-- Modelled from the spec: the function `pipe.NewOutput(f, mos, s)`, which
stores its three arguments in a new `pipe.Output`. -/
def NewOutput {OFmt OMod Snk : Type} (f : OFmt) (mos : List OMod) (s : Snk) :
    Output OFmt OMod Snk :=
  { Format := f, Modifiers := mos, Sink := s }

/-- The struct `Flow` as the literal in `Parse` fills it: one input and the
sequence `pipe.Outputs`. -/
structure Flow (Src IMod IFmt OFmt OMod Snk : Type) where
  Input : Input Src IMod IFmt
  Outputs : List (Output OFmt OMod Snk)
  deriving DecidableEq

/-- A constructor call `ctor(ctx)`, recorded in the log as `c`. -/
def callCtor {Ctx W α : Type} (c : CtorCall) (ctor : Ctor Ctx W α) (ctx : Ctx)
    (st : St W CtorCall) : Except GoError α × St W CtorCall :=
  match ctor ctx st.world with
  | (res, w) => (res, ⟨w, st.calls ++ [c]⟩)

section parser

variable {Ctx W Src IMod IFmt OFmt OMod Snk : Type}

/-- The modifier loop of `parseInput` over `parts[1 : len(parts)-1]`, with
`mis` the modifiers appended so far. -/
def parseInputLoop (p : Parser Ctx W Src IMod IFmt OFmt OMod Snk) (ctx : Ctx)
    (fPart : String) :
    List String → List IMod → St W CtorCall → Result (List IMod) × St W CtorCall
  | [], mis, st => (.ok mis, st)
  | rcPart :: rest, mis, st =>
    match p.InputModifiers rcPart with
    | none => (.err (errorsErrorfS "invalid modifier: " fPart), st)
    | some rcCtor =>
      match callCtor (.inputModifier rcPart) rcCtor ctx st with
      | (.error err, st1) => (.err (errorsErrorfV "failed to create modifier: " err), st1)
      | (.ok rc, st1) => parseInputLoop p ctx fPart rest (mis ++ [rc]) st1

/-- Method `Parser.parseInput`. -/
def parseInput (p : Parser Ctx W Src IMod IFmt OFmt OMod Snk) (ctx : Ctx)
    (line : String) (st : St W CtorCall) :
    Result (Input Src IMod IFmt) × St W CtorCall :=
  if line = "" then (.err (errorsNew "empty input"), st)
  else
    let parts := stringsSplit line Separator
    match parts[0]? with
    | none => (.panic "index out of range", st)
    | some sPart =>
      match p.Sources sPart with
      | none => (.err (errorsErrorfS "invalid source: " sPart), st)
      | some sCtor =>
        match callCtor (.source sPart) sCtor ctx st with
        | (.error err, st1) => (.err (errorsErrorfV "failed to create source: " err), st1)
        | (.ok s, st1) =>
          match parts[parts.length - 1]? with
          | none => (.panic "index out of range", st1)
          | some fPart =>
            match p.InputFormats fPart with
            | none => (.err (errorsErrorfS "invalid input format: " fPart), st1)
            | some fCtor =>
              match callCtor (.inputFormat fPart) fCtor ctx st1 with
              | (.error err, st2) =>
                (.err (errorsErrorfV "failed to create input format: " err), st2)
              | (.ok f, st2) =>
                match goSlice parts 1 (parts.length - 1) with
                | none => (.panic "slice bounds out of range", st2)
                | some interior =>
                  match parseInputLoop p ctx fPart interior [] st2 with
                  | (.ok mis, st3) => (.ok (NewInput s mis f), st3)
                  | (.err e, st3) => (.err e, st3)
                  | (.panic msg, st3) => (.panic msg, st3)

/-- The modifier loop of `parseOutput` over `parts[1 : len(parts)-1]`, with
`mos` the modifiers appended so far. -/
def parseOutputLoop (p : Parser Ctx W Src IMod IFmt OFmt OMod Snk) (ctx : Ctx)
    (fPart : String) :
    List String → List OMod → St W CtorCall → Result (List OMod) × St W CtorCall
  | [], mos, st => (.ok mos, st)
  | wcPart :: rest, mos, st =>
    match p.OutputModifiers wcPart with
    | none => (.err (errorsErrorfS "invalid modifier: " fPart), st)
    | some wcCtor =>
      match callCtor (.outputModifier wcPart) wcCtor ctx st with
      | (.error err, st1) => (.err (errorsErrorfV "failed to create modifier: " err), st1)
      | (.ok wc, st1) => parseOutputLoop p ctx fPart rest (mos ++ [wc]) st1

/-- Method `Parser.parseOutput`. -/
def parseOutput (p : Parser Ctx W Src IMod IFmt OFmt OMod Snk) (ctx : Ctx)
    (line : String) (st : St W CtorCall) :
    Result (Output OFmt OMod Snk) × St W CtorCall :=
  if line = "" then (.err (errorsNew "empty output"), st)
  else
    let parts := stringsSplit line Separator
    match parts[0]? with
    | none => (.panic "index out of range", st)
    | some fPart =>
      match p.OutputFormats fPart with
      | none => (.err (errorsErrorfS "invalid output format: " fPart), st)
      | some fCtor =>
        match callCtor (.outputFormat fPart) fCtor ctx st with
        | (.error err, st1) =>
          (.err (errorsErrorfV "failed to create output format: " err), st1)
        | (.ok f, st1) =>
          match parts[parts.length - 1]? with
          | none => (.panic "index out of range", st1)
          | some sPart =>
            match p.Sinks sPart with
            | none => (.err (errorsErrorfS "invalid sink: " sPart), st1)
            | some sCtor =>
              match callCtor (.sink sPart) sCtor ctx st1 with
              | (.error err, st2) => (.err (errorsErrorfV "failed to create sink: " err), st2)
              | (.ok s, st2) =>
                match goSlice parts 1 (parts.length - 1) with
                | none => (.panic "slice bounds out of range", st2)
                | some interior =>
                  match parseOutputLoop p ctx fPart interior [] st2 with
                  | (.ok mos, st3) => (.ok (NewOutput f mos s), st3)
                  | (.err e, st3) => (.err e, st3)
                  | (.panic msg, st3) => (.panic msg, st3)

/-- The loop of `Parse` over `outputLines`, with `outputs` the outputs
appended so far. -/
def parseOutputsLoop (p : Parser Ctx W Src IMod IFmt OFmt OMod Snk) (ctx : Ctx) :
    List String → List (Output OFmt OMod Snk) → St W CtorCall →
      Result (List (Output OFmt OMod Snk)) × St W CtorCall
  | [], outputs, st => (.ok outputs, st)
  | outputLine :: rest, outputs, st =>
    match parseOutput p ctx outputLine st with
    | (.err err, st1) => (.err (errorsErrorfV "failed to parse outputs: " err), st1)
    | (.panic msg, st1) => (.panic msg, st1)
    | (.ok o, st1) => parseOutputsLoop p ctx rest (outputs ++ [o]) st1

/-- Method `Parser.Parse`. -/
def Parse (p : Parser Ctx W Src IMod IFmt OFmt OMod Snk) (ctx : Ctx)
    (inputLine : String) (outputLines : List String) (st : St W CtorCall) :
    Result (Flow Src IMod IFmt OFmt OMod Snk) × St W CtorCall :=
  match parseInput p ctx inputLine st with
  | (.err err, st1) => (.err (errorsErrorfV "failed to parse input: " err), st1)
  | (.panic msg, st1) => (.panic msg, st1)
  | (.ok input, st1) =>
    match parseOutputsLoop p ctx outputLines [] st1 with
    | (.err e, st2) => (.err e, st2)
    | (.panic msg, st2) => (.panic msg, st2)
    | (.ok outputs, st2) => (.ok { Input := input, Outputs := outputs }, st2)

end parser

/-! ## Specification-side definitions -/

/-- The nested call `M1.Wrap(M2.Wrap(... Mn.Wrap(r) ...))` written out for the
list `[M1, ..., Mn]`: the tail is evaluated first and the head is applied to
its value; a failing call leaves no value for the calls around it. -/
def nestedWrap {W R : Type} : List (InputModifier W R) → R → W → Except GoError R × W
  | [], r, w => (.ok r, w)
  | m :: ms, r, w =>
    match nestedWrap ms r w with
    | (.ok r1, w1) => m.Wrap r1 w1
    | (.error e, w1) => (.error e, w1)

/-- The calls made while evaluating `nestedWrap`, in evaluation order; the
head of the list sits at index `base`. -/
def nestedCalls {W R : Type} : Nat → List (InputModifier W R) → R → W → List (Call R)
  | _, [], _, _ => []
  | base, _ :: ms, r, w =>
    match nestedWrap ms r w with
    | (.ok r1, _) => nestedCalls (base + 1) ms r w ++ [Call.wrap base r1]
    | (.error _, _) => nestedCalls (base + 1) ms r w

/-- An output modifier read as an input modifier over the same streams: the
same `Wrap`, so the same successes, failures and effects. -/
def OutputModifier.asInput {W R : Type} (m : OutputModifier W R) : InputModifier W R where
  Wrap := m.Wrap

/-- A logged call with its slice index moved up by `n`: the index a modifier
of `ys` has in `xs ++ ys` when `xs` has `n` elements. -/
def Call.shift {S : Type} (n : Nat) : Call S → Call S
  | .wrap i s => .wrap (i + n) s
  | .close s => .close s

/-- Whether a constructor call returned a value, and the state it left. -/
def stepOutcome {W α : Type} (r : Except GoError α × St W CtorCall) : Bool × St W CtorCall :=
  match r with
  | (.ok _, st1) => (true, st1)
  | (.error _, st1) => (false, st1)

/-- One planned constructor call run in state `st`: `none` when the name is not
a key of the table of its role (nothing is invoked), otherwise the registered
constructor is called and the step reports whether it succeeded and the state
it left. -/
def ctorStep {Ctx W Src IMod IFmt OFmt OMod Snk : Type}
    (p : Parser Ctx W Src IMod IFmt OFmt OMod Snk) (ctx : Ctx) (c : CtorCall)
    (st : St W CtorCall) : Option (Bool × St W CtorCall) :=
  match c with
  | .source n => (p.Sources n).map fun ctor => stepOutcome (callCtor (.source n) ctor ctx st)
  | .inputModifier n =>
    (p.InputModifiers n).map fun ctor => stepOutcome (callCtor (.inputModifier n) ctor ctx st)
  | .inputFormat n =>
    (p.InputFormats n).map fun ctor => stepOutcome (callCtor (.inputFormat n) ctor ctx st)
  | .outputFormat n =>
    (p.OutputFormats n).map fun ctor => stepOutcome (callCtor (.outputFormat n) ctor ctx st)
  | .outputModifier n =>
    (p.OutputModifiers n).map fun ctor =>
      stepOutcome (callCtor (.outputModifier n) ctor ctx st)
  | .sink n => (p.Sinks n).map fun ctor => stepOutcome (callCtor (.sink n) ctor ctx st)

/-- A plan of constructor calls run up to its point of failure: the calls are
made in order, each in the state the previous one left; the run stops before
the first call whose name is unknown (invoking nothing for it) and right after
the first call whose constructor fails; the calls before that point all
succeeded and no call after it is made. The result is the state reached. -/
def runPlan {Ctx W Src IMod IFmt OFmt OMod Snk : Type}
    (p : Parser Ctx W Src IMod IFmt OFmt OMod Snk) (ctx : Ctx) :
    List CtorCall → St W CtorCall → St W CtorCall
  | [], st => st
  | c :: rest, st =>
    match ctorStep p ctx c st with
    | none => st
    | some (false, st1) => st1
    | some (true, st1) => runPlan p ctx rest st1

/-- The constructor calls an input line asks for, in the order head (source),
tail (input format), then the interior tokens left to right (input
modifiers); the empty line asks for none. -/
def inputPlan (line : String) : List CtorCall :=
  if line = "" then []
  else
    match (stringsSplit line Separator).head?, (stringsSplit line Separator).getLast? with
    | some hd, some tl =>
      .source hd :: .inputFormat tl ::
        (((stringsSplit line Separator).drop 1).dropLast).map CtorCall.inputModifier
    | _, _ => []

/-- The constructor calls an output line asks for, in the order head (output
format), tail (sink), then the interior tokens left to right (output
modifiers); the empty line asks for none. -/
def outputPlan (line : String) : List CtorCall :=
  if line = "" then []
  else
    match (stringsSplit line Separator).head?, (stringsSplit line Separator).getLast? with
    | some hd, some tl =>
      .outputFormat hd :: .sink tl ::
        (((stringsSplit line Separator).drop 1).dropLast).map CtorCall.outputModifier
    | _, _ => []

/-! ## Example registries, modifiers and closers -/

/-- A constructor that returns `a` and leaves the world alone. -/
def okCtor {α : Type} (a : α) : Ctor Unit Unit α := fun _ w => (.ok a, w)

/-- A registry of role names over string-valued role instances: sources `tcp`
and `gcs`, input modifier `gzip`, input formats `http` and `json`, output
formats `json` and `http`, output modifier `gzip`, sinks `gcs` and `har`. -/
def demoParser : Parser Unit Unit String String String String String String where
  Sources := fun n => if n = "tcp" ∨ n = "gcs" then some (okCtor ("source " ++ n)) else none
  InputModifiers := fun n => if n = "gzip" then some (okCtor ("imod " ++ n)) else none
  InputFormats := fun n =>
    if n = "http" ∨ n = "json" then some (okCtor ("iformat " ++ n)) else none
  OutputFormats := fun n =>
    if n = "json" ∨ n = "http" then some (okCtor ("oformat " ++ n)) else none
  OutputModifiers := fun n => if n = "gzip" then some (okCtor ("omod " ++ n)) else none
  Sinks := fun n => if n = "gcs" ∨ n = "har" then some (okCtor ("sink " ++ n)) else none

/-- An input modifier that puts its name on top of the reader's layers and
notes its name in the world. -/
def tagModifier (name : String) : InputModifier (List String) (List String) where
  Wrap := fun r w => (.ok (name :: r), w ++ [name])

/-- An input modifier whose `Wrap` fails, noting its name in the world. -/
def failModifier (name : String) : InputModifier (List String) (List String) where
  Wrap := fun _ w => (.error (.leaf (name ++ " cannot wrap")), w ++ [name])

/-- A closer that closes cleanly, noting its name in the world. -/
def okCloser (name : String) : Closer (List String) where
  Close := fun w => (none, w ++ [name])

/-- A closer whose `Close` fails, noting its name in the world. -/
def failCloser (name : String) : Closer (List String) where
  Close := fun w => (some (.leaf (name ++ " cannot close")), w ++ [name])

/-- A registry in which the one name `raw` is both a source and an input
format, and both an output format and a sink. -/
def sameNameParser : Parser Unit Unit String String String String String String where
  Sources := fun n => if n = "raw" then some (okCtor "source raw") else none
  InputModifiers := fun _ => none
  InputFormats := fun n => if n = "raw" then some (okCtor "iformat raw") else none
  OutputFormats := fun n => if n = "raw" then some (okCtor "oformat raw") else none
  OutputModifiers := fun _ => none
  Sinks := fun n => if n = "raw" then some (okCtor "sink raw") else none

/-- The states a parse of `tcp|http`, then `json|gzip|gcs`, then `http|har`
passes through over `demoParser`: after the input, after each output. -/
def demoStates : Nat → St Unit CtorCall
  | 0 => ⟨(), [.source "tcp", .inputFormat "http"]⟩
  | 1 => ⟨(), [.source "tcp", .inputFormat "http", .outputFormat "json", .sink "gcs",
      .outputModifier "gzip"]⟩
  | _ => ⟨(), [.source "tcp", .inputFormat "http", .outputFormat "json", .sink "gcs",
      .outputModifier "gzip", .outputFormat "http", .sink "har"]⟩

/-- The outputs `demoParser` builds for `json|gzip|gcs` and `http|har`. -/
def demoOutputs : Nat → Output String String String
  | 0 => ⟨"oformat json", ["omod gzip"], "sink gcs"⟩
  | _ => ⟨"oformat http", [], "sink har"⟩

/-- A constructor that fails with the given text and leaves the world alone. -/
def failCtor {α : Type} (text : String) : Ctor Unit Unit α := fun _ w => (.error (.leaf text), w)

/-- A registry in which, in every table, the name `ok` has a constructor that
succeeds and the name `bad` one that fails. -/
def faultyParser : Parser Unit Unit String String String String String String where
  Sources := fun n =>
    if n = "ok" then some (okCtor "source ok")
    else if n = "bad" then some (failCtor "no source") else none
  InputModifiers := fun n =>
    if n = "ok" then some (okCtor "imod ok")
    else if n = "bad" then some (failCtor "no imod") else none
  InputFormats := fun n =>
    if n = "ok" then some (okCtor "iformat ok")
    else if n = "bad" then some (failCtor "no iformat") else none
  OutputFormats := fun n =>
    if n = "ok" then some (okCtor "oformat ok")
    else if n = "bad" then some (failCtor "no oformat") else none
  OutputModifiers := fun n =>
    if n = "ok" then some (okCtor "omod ok")
    else if n = "bad" then some (failCtor "no omod") else none
  Sinks := fun n =>
    if n = "ok" then some (okCtor "sink ok")
    else if n = "bad" then some (failCtor "no sink") else none

/-- An output modifier that puts its name on top of the writer's layers and
notes its name in the world. -/
def tagOutputModifier (name : String) : OutputModifier (List String) (List String) where
  Wrap := fun w wd => (.ok (name :: w), wd ++ [name])

/-- An output modifier whose `Wrap` fails, noting its name in the world. -/
def failOutputModifier (name : String) : OutputModifier (List String) (List String) where
  Wrap := fun _ wd => (.error (.leaf (name ++ " cannot wrap")), wd ++ [name])

/-- The states `parseInput` passes through on a line `gcs|gzip|...|json` over
`demoParser` once source and format are built: after `i` modifiers `gzip`. -/
def demoInputStates (i : Nat) : St Unit CtorCall :=
  ⟨(), [CtorCall.source "gcs", CtorCall.inputFormat "json"] ++
    List.replicate i (CtorCall.inputModifier "gzip")⟩

/-- The states `parseInput` passes through on a line `ok|ok|...|ok` over
`faultyParser` once source and format are built: after `i` modifiers `ok`. -/
def faultyInputStates (i : Nat) : St Unit CtorCall :=
  ⟨(), [CtorCall.source "ok", CtorCall.inputFormat "ok"] ++
    List.replicate i (CtorCall.inputModifier "ok")⟩

/-- The states `parseOutput` passes through on a line `ok|ok|...|ok` over
`faultyParser` once format and sink are built: after `i` modifiers `ok`. -/
def faultyOutputStates (i : Nat) : St Unit CtorCall :=
  ⟨(), [CtorCall.outputFormat "ok", CtorCall.sink "ok"] ++
    List.replicate i (CtorCall.outputModifier "ok")⟩

/-- The empty log over the trivial world. -/
def st0 : St Unit CtorCall := ⟨(), []⟩

/-! ## Modifier chains: the loop against the nested call -/

theorem nestedWrap_append {W R : Type} (xs ys : List (InputModifier W R)) (r : R) (w : W) :
    nestedWrap (xs ++ ys) r w =
      match nestedWrap ys r w with
      | (.ok r1, w1) => nestedWrap xs r1 w1
      | (.error e, w1) => (.error e, w1) := by
  induction xs with
  | nil =>
    simp only [List.nil_append, nestedWrap]
    rcases h : nestedWrap ys r w with ⟨res, w1⟩
    cases res <;> rfl
  | cons m xs ih =>
    rw [List.cons_append, nestedWrap, ih]
    rcases h : nestedWrap ys r w with ⟨res, w1⟩
    cases res with
    | error e => rfl
    | ok r1 => simp only [nestedWrap]

theorem nestedCalls_append {W R : Type} (xs ys : List (InputModifier W R)) (base : Nat)
    (r : R) (w : W) :
    nestedCalls base (xs ++ ys) r w =
      nestedCalls (base + xs.length) ys r w ++
        match nestedWrap ys r w with
        | (.ok r1, w1) => nestedCalls base xs r1 w1
        | (.error _, _) => [] := by
  induction xs generalizing base with
  | nil =>
    simp only [List.nil_append, nestedCalls, List.length_nil, Nat.add_zero]
    rcases h : nestedWrap ys r w with ⟨res, w1⟩
    cases res <;> simp
  | cons m xs ih =>
    have hb : base + 1 + xs.length = base + (xs.length + 1) := by omega
    rw [List.cons_append, nestedCalls, nestedWrap_append, ih, List.length_cons, hb]
    rcases h : nestedWrap ys r w with ⟨res, w1⟩
    cases res with
    | error e => simp
    | ok r1 =>
      simp only []
      rcases h2 : nestedWrap xs r1 w1 with ⟨res2, w2⟩
      cases res2 <;> simp [nestedCalls, h2]

/-- The loop of `InputModifiers.Wrap` entered at `k` computes the nested call
of the first `k` modifiers, makes exactly its calls, and never panics. -/
theorem wrapLoop_eq_nested {W R : Type} (is : InputModifiers W R) (k : Nat)
    (hk : k ≤ is.length) (r : R) (w : W) (cs : List (Call R)) :
    InputModifiers.wrapLoop is k r ⟨w, cs⟩ =
      match nestedWrap (is.take k) r w with
      | (.ok r1, w1) => (.ok r1, ⟨w1, cs ++ nestedCalls 0 (is.take k) r w⟩)
      | (.error e, w1) =>
        (.err (fmtErrorfW "failed to wrap input writer: " e),
          ⟨w1, cs ++ nestedCalls 0 (is.take k) r w⟩) := by
  induction k generalizing r w cs with
  | zero => simp [InputModifiers.wrapLoop, nestedWrap, nestedCalls]
  | succ k ih =>
    have hlt : k < is.length := hk
    have hget : is[k]? = some is[k] := List.getElem?_eq_getElem hlt
    have hlen : (List.take k is).length = k := by simp; omega
    rw [InputModifiers.wrapLoop, List.take_succ, hget]
    simp only [Option.toList, nestedWrap_append, nestedCalls_append, nestedWrap,
      nestedCalls, hlen, Nat.zero_add, List.nil_append]
    rcases h : is[k].Wrap r w with ⟨res, w1⟩
    cases res with
    | error e => simp
    | ok r1 =>
      simp only []
      rw [ih (by omega)]
      rcases h2 : nestedWrap (List.take k is) r1 w1 with ⟨res2, w2⟩
      cases res2 <;> simp

/-- Method `InputModifiers.Wrap` against the nested call over the whole list. -/
theorem Wrap_eq_nested {W R : Type} (is : InputModifiers W R) (r : R) (w : W)
    (cs : List (Call R)) :
    InputModifiers.Wrap is r ⟨w, cs⟩ =
      match nestedWrap is r w with
      | (.ok r1, w1) => (.ok r1, ⟨w1, cs ++ nestedCalls 0 is r w⟩)
      | (.error e, w1) =>
        (.err (fmtErrorfW "failed to wrap input writer: " e),
          ⟨w1, cs ++ nestedCalls 0 is r w⟩) := by
  have h := wrapLoop_eq_nested is is.length (Nat.le_refl _) r w cs
  rw [List.take_length] at h
  exact h

/-- When the nested call succeeds its calls are one per modifier, at the
indices `base + n - 1` down to `base`, the first of them on `r`. -/
theorem nestedCalls_of_ok {W R : Type} (ms : List (InputModifier W R)) (base : Nat)
    (r : R) (w : W) (r1 : R) (w1 : W) (h : nestedWrap ms r w = (.ok r1, w1)) :
    ∃ args : List R, args.length = ms.length ∧
      nestedCalls base ms r w = List.zipWith Call.wrap (List.range' base ms.length).reverse args ∧
      (ms ≠ [] → args.head? = some r) := by
  induction ms generalizing base r1 w1 with
  | nil => exact ⟨[], rfl, by simp [nestedCalls], by simp⟩
  | cons m ms ih =>
    rw [nestedWrap] at h
    rcases h2 : nestedWrap ms r w with ⟨res2, w2⟩
    rw [h2] at h
    cases res2 with
    | error e => simp at h
    | ok r2 =>
      obtain ⟨args, hlen, hcalls, hhead⟩ := ih (base + 1) r2 w2 h2
      refine ⟨args ++ [r2], by simp [hlen], ?_, ?_⟩
      · rw [nestedCalls, h2]
        simp only [List.length_cons, List.range'_succ, List.reverse_cons]
        rw [List.zipWith_append _ _ _ _ _ (by simp [hlen]), hcalls]
        simp
      · intro _
        cases ms with
        | nil =>
          simp only [nestedWrap, Prod.mk.injEq, Except.ok.injEq] at h2
          have : args = [] := List.length_eq_zero.mp (by simpa using hlen)
          simp [this, h2.1]
        | cons m2 ms2 =>
          have hne : args ≠ [] := by
            intro h0
            simp [h0] at hlen
          rw [List.head?_append_of_ne_nil _ hne]
          exact hhead (by simp)

/-! ## Parser: tokens and the shape of a parse -/

theorem splitChars_ne_nil (sep : Char) (cs : List Char) : splitChars sep cs ≠ [] := by
  cases cs with
  | nil => simp [splitChars]
  | cons c cs =>
    rw [splitChars]
    split
    · simp
    · split <;> simp

/-- The call `strings.Split` returns at least one piece. -/
theorem stringsSplit_ne_nil (s : String) (sep : Char) : stringsSplit s sep ≠ [] := by
  simp [stringsSplit, splitChars_ne_nil]

theorem getElem?_last_of_split {α : Type} (hd : α) (mid : List α) (tl : α) :
    (hd :: (mid ++ [tl]))[(hd :: (mid ++ [tl])).length - 1]? = some tl := by
  simp

theorem goSlice_interior {α : Type} (hd : α) (mid : List α) (tl : α) :
    goSlice (hd :: (mid ++ [tl])) 1 ((hd :: (mid ++ [tl])).length - 1) = some mid := by
  simp [goSlice]

/-- The run of `parseInput` on a non-empty line of at least two tokens. -/
theorem parseInput_of_split {Ctx W Src IMod IFmt OFmt OMod Snk : Type}
    (p : Parser Ctx W Src IMod IFmt OFmt OMod Snk) (ctx : Ctx) (line : String)
    (st : St W CtorCall) (hd : String) (mid : List String) (tl : String)
    (hne : line ≠ "") (hsplit : stringsSplit line Separator = hd :: (mid ++ [tl])) :
    parseInput p ctx line st =
      match p.Sources hd with
      | none => (.err (errorsErrorfS "invalid source: " hd), st)
      | some sCtor =>
        match callCtor (.source hd) sCtor ctx st with
        | (.error err, st1) => (.err (errorsErrorfV "failed to create source: " err), st1)
        | (.ok s, st1) =>
          match p.InputFormats tl with
          | none => (.err (errorsErrorfS "invalid input format: " tl), st1)
          | some fCtor =>
            match callCtor (.inputFormat tl) fCtor ctx st1 with
            | (.error err, st2) =>
              (.err (errorsErrorfV "failed to create input format: " err), st2)
            | (.ok f, st2) =>
              match parseInputLoop p ctx tl mid [] st2 with
              | (.ok mis, st3) => (.ok (NewInput s mis f), st3)
              | (.err e, st3) => (.err e, st3)
              | (.panic msg, st3) => (.panic msg, st3) := by
  unfold parseInput
  simp only [hne, if_false, hsplit, getElem?_last_of_split, goSlice_interior,
    List.getElem?_cons_zero]

/-- A successful run of the modifier loop of `parseInput`: one constructor
call per token, each in the state the previous one left, the values appended
to `mis` in token order. -/
theorem parseInputLoop_ok {Ctx W Src IMod IFmt OFmt OMod Snk : Type}
    (p : Parser Ctx W Src IMod IFmt OFmt OMod Snk) (ctx : Ctx) (fPart : String)
    (toks : List String) (mis : List IMod) (st : St W CtorCall) (out : List IMod)
    (st' : St W CtorCall) (h : parseInputLoop p ctx fPart toks mis st = (.ok out, st')) :
    ∃ (new : List IMod) (sts : Nat → St W CtorCall),
      out = mis ++ new ∧ new.length = toks.length ∧ sts 0 = st ∧ sts toks.length = st' ∧
      ∀ (i : Nat) (hi : i < toks.length), ∃ c m,
        p.InputModifiers toks[i] = some c ∧ new[i]? = some m ∧
        callCtor (.inputModifier toks[i]) c ctx (sts i) = (.ok m, sts (i + 1)) := by
  induction toks generalizing mis st with
  | nil =>
    simp only [parseInputLoop, Prod.mk.injEq, Result.ok.injEq] at h
    exact ⟨[], fun _ => st, by simp [h.1], rfl, rfl, h.2, fun i hi => by simp at hi⟩
  | cons tok rest ih =>
    rw [parseInputLoop] at h
    cases hIM : p.InputModifiers tok with
    | none => simp [hIM] at h
    | some c =>
      simp only [hIM] at h
      rcases hc : callCtor (.inputModifier tok) c ctx st with ⟨res, st1⟩
      rw [hc] at h
      cases res with
      | error e => simp at h
      | ok rc =>
        obtain ⟨new, sts, hout, hlen, h0, hn, hstep⟩ := ih (mis ++ [rc]) st1 h
        refine ⟨rc :: new, fun i => match i with | 0 => st | j + 1 => sts j, ?_, ?_, rfl, ?_, ?_⟩
        · simp [hout]
        · simp [hlen]
        · simpa using hn
        · intro i hi
          cases i with
          | zero =>
            refine ⟨c, rc, by simpa using hIM, by simp, ?_⟩
            simpa [h0] using hc
          | succ j =>
            obtain ⟨c2, m2, hc2, hm2, hcall⟩ := hstep j (by simpa using hi)
            exact ⟨c2, m2, by simpa using hc2, by simpa using hm2, by simpa using hcall⟩

/-- A run of the loop of `Parse` all of whose `parseOutput` calls succeed. -/
theorem parseOutputsLoop_ok {Ctx W Src IMod IFmt OFmt OMod Snk : Type}
    (p : Parser Ctx W Src IMod IFmt OFmt OMod Snk) (ctx : Ctx) (lines : List String)
    (acc : List (Output OFmt OMod Snk)) (sts : Nat → St W CtorCall)
    (outs : Nat → Output OFmt OMod Snk)
    (h : ∀ (i : Nat) (hi : i < lines.length),
      parseOutput p ctx lines[i] (sts i) = (.ok (outs i), sts (i + 1))) :
    parseOutputsLoop p ctx lines acc (sts 0) =
      (.ok (acc ++ (List.range lines.length).map outs), sts lines.length) := by
  induction lines generalizing acc sts outs with
  | nil => simp [parseOutputsLoop]
  | cons line rest ih =>
    have h0 := h 0 (by simp)
    simp only [List.getElem_cons_zero] at h0
    rw [parseOutputsLoop, h0]
    simp only []
    have hrest : ∀ (i : Nat) (hi : i < rest.length),
        parseOutput p ctx rest[i] (sts (i + 1)) = (.ok (outs (i + 1)), sts (i + 1 + 1)) := by
      intro i hi
      have := h (i + 1) (by simpa using hi)
      simpa using this
    rw [ih (acc ++ [outs 0]) (fun i => sts (i + 1)) (fun i => outs (i + 1)) hrest]
    simp [List.range_succ_eq_map, List.map_map, Function.comp_def]

/-! ## Claims on modifiers.go -/

/-- C1: `InputModifiers.Wrap` applies the modifiers in reverse declaration
order. Whenever every call of the nested expression
`M1.Wrap(M2.Wrap(... Mn.Wrap(r) ...))` succeeds, with value `r1`, the method
returns `r1` with a nil error, leaves the world that expression leaves, and
has made exactly `n` calls, at the indices `n-1, ..., 0` in this order, the
first of them (the last modifier's) on `r` itself; for the empty list it
returns `r` and calls nothing. -/
theorem C1_wrap_reverse_order {W R : Type} (is : InputModifiers W R) (r : R) (w : W)
    (cs : List (Call R)) (r1 : R) (w1 : W) (h : nestedWrap is r w = (.ok r1, w1)) :
    (∃ args : List R, args.length = is.length ∧ (is ≠ [] → args.head? = some r) ∧
      InputModifiers.Wrap is r ⟨w, cs⟩ =
        (.ok r1, ⟨w1, cs ++ List.zipWith Call.wrap (List.range is.length).reverse args⟩)) ∧
    InputModifiers.Wrap ([] : InputModifiers W R) r ⟨w, cs⟩ = (.ok r, ⟨w, cs⟩) := by
  refine ⟨?_, ?_⟩
  · obtain ⟨args, hlen, hcalls, hhead⟩ := nestedCalls_of_ok is 0 r w r1 w1 h
    refine ⟨args, hlen, hhead, ?_⟩
    rw [Wrap_eq_nested, h, hcalls, List.range_eq_range']
  · simp [InputModifiers.Wrap, InputModifiers.wrapLoop]

/-- C1 at `[M1, M2, M3]` over the reader `src`: the value is
`M1(M2(M3(src)))`, and the world has seen `M3`, `M2`, `M1` in this order. -/
theorem C1_wrap_reverse_order_witness :
    (∃ args : List (List String), args.length = 3 ∧
      (([tagModifier "M1", tagModifier "M2", tagModifier "M3"] :
          InputModifiers (List String) (List String)) ≠ [] → args.head? = some ["src"]) ∧
      InputModifiers.Wrap [tagModifier "M1", tagModifier "M2", tagModifier "M3"] ["src"]
          ⟨[], []⟩ =
        (.ok ["M1", "M2", "M3", "src"],
          ⟨["M3", "M2", "M1"],
            [] ++ List.zipWith Call.wrap (List.range 3).reverse args⟩)) ∧
    InputModifiers.Wrap ([] : InputModifiers (List String) (List String)) ["src"] ⟨[], []⟩ =
      (.ok ["src"], ⟨[], []⟩) :=
  C1_wrap_reverse_order [tagModifier "M1", tagModifier "M2", tagModifier "M3"] ["src"] [] []
    ["M1", "M2", "M3", "src"] ["M3", "M2", "M1"] rfl

/-- C2: `InputModifiers.Wrap` short-circuits on the first failing modifier.
In a list `pre ++ m :: suf`, if the calls of `suf` succeed with value `r1` and
`m.Wrap(r1)` fails with `e`, then the method returns no reader and the error
`failed to wrap input writer: ...`, which unwraps to `e`; the world is the one
the failing call left; and the calls made are only `Wrap` calls, one per
modifier of `suf` and one for `m`, none at an index of `pre` and none a
`Close`. -/
theorem C2_wrap_short_circuits {W R : Type} (pre suf : List (InputModifier W R))
    (m : InputModifier W R) (r : R) (w : W) (cs : List (Call R)) (r1 : R) (w1 : W)
    (e : GoError) (w2 : W) (hsuf : nestedWrap suf r w = (.ok r1, w1))
    (hm : m.Wrap r1 w1 = (.error e, w2)) :
    ∃ calls : List (Call R),
      InputModifiers.Wrap (pre ++ m :: suf) r ⟨w, cs⟩ =
        (.err (fmtErrorfW "failed to wrap input writer: " e), ⟨w2, cs ++ calls⟩) ∧
      (fmtErrorfW "failed to wrap input writer: " e).Unwrap = some e ∧
      calls.length = suf.length + 1 ∧
      ∀ c ∈ calls, ∃ j s, c = Call.wrap j s ∧ pre.length ≤ j := by
  have hms : nestedWrap (m :: suf) r w = (.error e, w2) := by
    rw [nestedWrap, hsuf]; exact hm
  obtain ⟨args, hlen, hcalls, -⟩ := nestedCalls_of_ok suf (pre.length + 1) r w r1 w1 hsuf
  have hall : nestedCalls 0 (pre ++ m :: suf) r w =
      List.zipWith Call.wrap (List.range' (pre.length + 1) suf.length).reverse args ++
        [Call.wrap pre.length r1] := by
    rw [nestedCalls_append, hms, nestedCalls, hsuf]
    simp only [Nat.zero_add, List.append_nil]
    rw [hcalls]
  refine ⟨nestedCalls 0 (pre ++ m :: suf) r w, ?_, rfl, ?_, ?_⟩
  · rw [Wrap_eq_nested, nestedWrap_append, hms]
  · rw [hall]
    simp [hlen]
  · rw [hall]
    intro c hc
    simp only [List.mem_append, List.mem_singleton] at hc
    rcases hc with hc | hc
    · obtain ⟨i, hi, rfl⟩ := List.mem_iff_getElem.mp hc
      simp only [List.getElem_zipWith]
      refine ⟨_, _, rfl, ?_⟩
      have hi2 : i < (List.range' (pre.length + 1) suf.length).reverse.length := by
        simp only [List.length_zipWith, List.length_reverse, List.length_range'] at hi ⊢
        omega
      have hmem : (List.range' (pre.length + 1) suf.length).reverse[i] ∈
          (List.range' (pre.length + 1) suf.length).reverse := List.getElem_mem hi2
      rw [List.mem_reverse, List.mem_range'_1] at hmem
      omega
    · exact ⟨_, _, hc, Nat.le_refl _⟩

/-- C2 at `[M1, M2, M3]` with a failing `M2`: only `M3` and `M2` are called. -/
theorem C2_wrap_short_circuits_witness :
    ∃ calls : List (Call (List String)),
      InputModifiers.Wrap ([tagModifier "M1"] ++ failModifier "M2" :: [tagModifier "M3"])
          ["src"] ⟨[], []⟩ =
        (.err (fmtErrorfW "failed to wrap input writer: " (.leaf "M2 cannot wrap")),
          ⟨["M3", "M2"], [] ++ calls⟩) ∧
      (fmtErrorfW "failed to wrap input writer: " (.leaf "M2 cannot wrap")).Unwrap =
        some (.leaf "M2 cannot wrap") ∧
      calls.length = [tagModifier "M3"].length + 1 ∧
      ∀ c ∈ calls, ∃ j s, c = Call.wrap j s ∧ [tagModifier "M1"].length ≤ j :=
  C2_wrap_short_circuits [tagModifier "M1"] [tagModifier "M3"] (failModifier "M2") ["src"]
    [] [] ["M3", "src"] ["M3"] (.leaf "M2 cannot wrap") ["M3", "M2"] rfl rfl

/-- C3: `CloseSequentially(a, b)` does not hide a first failure. If
`a.Close()` returns the error `e`, the function returns exactly `e`, the only
call it has made is `a.Close()`, and the world is the one that call left, so
`b.Close()` is not invoked, whether `b` is present or nil. -/
theorem C3_close_first_failure {W : Type} (a : Closer W) (b : Option (Closer W))
    (st : St W (Call (Closer W))) (e : GoError) (w1 : W)
    (h : a.Close st.world = (some e, w1)) :
    CloseSequentially a b st = (some e, ⟨w1, st.calls ++ [Call.close a]⟩) := by
  simp [CloseSequentially, h]

/-- C3 at a failing `a` and a present `b`: the world has seen only `a`. -/
theorem C3_close_first_failure_witness :
    CloseSequentially (failCloser "a") (some (okCloser "b")) ⟨[], []⟩ =
      (some (.leaf "a cannot close"), ⟨["a"], [] ++ [Call.close (failCloser "a")]⟩) :=
  C3_close_first_failure (failCloser "a") (some (okCloser "b")) ⟨[], []⟩
    (.leaf "a cannot close") ["a"] rfl

/-- C4: when `a.Close()` succeeds, `CloseSequentially(a, b)` returns the
outcome of `b`. With `b` present it makes exactly the two calls `a.Close()`
then `b.Close()`, the latter in the world `a.Close()` left, and returns that
call's result unchanged (nil or the error of `b`); with `b` nil it returns nil
after the single call `a.Close()`. -/
theorem C4_close_second_outcome {W : Type} (a : Closer W) (st : St W (Call (Closer W)))
    (w1 : W) (h : a.Close st.world = (none, w1)) :
    (∀ bc : Closer W, CloseSequentially a (some bc) st =
      ((bc.Close w1).1, ⟨(bc.Close w1).2, st.calls ++ [Call.close a, Call.close bc]⟩)) ∧
    CloseSequentially a none st = (none, ⟨w1, st.calls ++ [Call.close a]⟩) := by
  refine ⟨fun bc => ?_, ?_⟩
  · simp [CloseSequentially, h]
  · simp [CloseSequentially, h]

/-- C4 at a clean `a`: a failing `b` gives the error of `b`, a clean `b` gives
nil, and a nil `b` gives nil with only `a` closed. -/
theorem C4_close_second_outcome_witness :
    (CloseSequentially (okCloser "a") (some (failCloser "b")) ⟨[], []⟩).1 =
        some (.leaf "b cannot close") ∧
      (CloseSequentially (okCloser "a") (some (failCloser "b")) ⟨[], []⟩).2.world =
        ["a", "b"] ∧
      (CloseSequentially (okCloser "a") (some (okCloser "b")) ⟨[], []⟩).1 = none ∧
      CloseSequentially (okCloser "a") none ⟨[], []⟩ =
        (none, ⟨["a"], [] ++ [Call.close (okCloser "a")]⟩) := by
  have h := C4_close_second_outcome (okCloser "a") ⟨[], []⟩ ["a"] rfl
  refine ⟨?_, ?_, ?_, h.2⟩
  · rw [h.1]; rfl
  · rw [h.1]; rfl
  · rw [h.1]; rfl

/-! ## Claims on parser.go -/

/-- C5: on a line that splits into `hd`, the interior tokens `mid` and `tl`,
a successful `parseInput` returns an Input whose source is the value of the
constructor registered in `Sources` under `hd`, whose format is the value of
the constructor registered in `InputFormats` under `tl` (called next), and
whose modifier sequence has exactly as many entries as `mid`, the `i`-th being
the value of the constructor registered in `InputModifiers` under the `i`-th
interior token, called in declaration order; with no interior token the
modifier sequence is empty. -/
theorem C5_parseInput_modifiers_in_order {Ctx W Src IMod IFmt OFmt OMod Snk : Type}
    (p : Parser Ctx W Src IMod IFmt OFmt OMod Snk) (ctx : Ctx) (line : String)
    (st : St W CtorCall) (inp : Input Src IMod IFmt) (st' : St W CtorCall)
    (hd : String) (mid : List String) (tl : String)
    (h : parseInput p ctx line st = (.ok inp, st'))
    (hsplit : stringsSplit line Separator = hd :: (mid ++ [tl])) :
    inp.Modifiers.length = mid.length ∧ (mid = [] → inp.Modifiers = []) ∧
    ∃ (sCtor : Ctor Ctx W Src) (fCtor : Ctor Ctx W IFmt) (stS : St W CtorCall)
      (sts : Nat → St W CtorCall),
      p.Sources hd = some sCtor ∧ p.InputFormats tl = some fCtor ∧
      callCtor (.source hd) sCtor ctx st = (.ok inp.Source, stS) ∧
      callCtor (.inputFormat tl) fCtor ctx stS = (.ok inp.Format, sts 0) ∧
      sts mid.length = st' ∧
      ∀ (i : Nat) (hi : i < mid.length), ∃ c m,
        p.InputModifiers mid[i] = some c ∧ inp.Modifiers[i]? = some m ∧
        callCtor (.inputModifier mid[i]) c ctx (sts i) = (.ok m, sts (i + 1)) := by
  have hne : line ≠ "" := by
    intro h0
    simp [parseInput, h0] at h
  rw [parseInput_of_split p ctx line st hd mid tl hne hsplit] at h
  cases hS : p.Sources hd with
  | none => simp [hS] at h
  | some sCtor =>
    simp only [hS] at h
    rcases hsc : callCtor (.source hd) sCtor ctx st with ⟨resS, stS⟩
    rw [hsc] at h
    cases resS with
    | error e => simp at h
    | ok s =>
      simp only [] at h
      cases hF : p.InputFormats tl with
      | none => simp [hF] at h
      | some fCtor =>
        simp only [hF] at h
        rcases hfc : callCtor (.inputFormat tl) fCtor ctx stS with ⟨resF, stF⟩
        rw [hfc] at h
        cases resF with
        | error e => simp at h
        | ok f =>
          simp only [] at h
          rcases hl : parseInputLoop p ctx tl mid [] stF with ⟨resL, stL⟩
          rw [hl] at h
          cases resL with
          | err e => simp at h
          | panic msg => simp at h
          | ok mis =>
            simp only [Prod.mk.injEq, Result.ok.injEq] at h
            obtain ⟨hinp, hst⟩ := h
            obtain ⟨new, sts, hout, hlen, h0, hn, hstep⟩ :=
              parseInputLoop_ok p ctx tl mid [] stF mis stL hl
            simp only [List.nil_append] at hout
            subst hout hinp hst
            refine ⟨hlen, ?_, sCtor, fCtor, stS, sts, rfl, rfl, hsc, ?_, hn, hstep⟩
            · intro hmid
              have : mis.length = 0 := by simpa [hmid] using hlen
              exact List.length_eq_zero.mp this
            · rw [h0]; exact hfc

/-- C5 at `tcp|http` (no interior token, empty modifier sequence) and at
`gcs|gzip|json` (one modifier, built by the constructor of `gzip`). -/
theorem C5_parseInput_modifiers_in_order_witness :
    ((⟨"source tcp", [], "iformat http"⟩ : Input String String String).Modifiers.length =
        ([] : List String).length ∧
      (([] : List String) = [] →
        (⟨"source tcp", [], "iformat http"⟩ : Input String String String).Modifiers = [])) ∧
    (⟨"source gcs", ["imod gzip"], "iformat json"⟩ : Input String String String).Modifiers.length
      = ["gzip"].length :=
  ⟨⟨(C5_parseInput_modifiers_in_order demoParser () "tcp|http" st0
        ⟨"source tcp", [], "iformat http"⟩ ⟨(), [.source "tcp", .inputFormat "http"]⟩
        "tcp" [] "http" rfl rfl).1,
      (C5_parseInput_modifiers_in_order demoParser () "tcp|http" st0
        ⟨"source tcp", [], "iformat http"⟩ ⟨(), [.source "tcp", .inputFormat "http"]⟩
        "tcp" [] "http" rfl rfl).2.1⟩,
    (C5_parseInput_modifiers_in_order demoParser () "gcs|gzip|json" st0
      ⟨"source gcs", ["imod gzip"], "iformat json"⟩
      ⟨(), [.source "gcs", .inputFormat "json", .inputModifier "gzip"]⟩
      "gcs" ["gzip"] "json" rfl rfl).1⟩

/-- C6 (defect): on an unknown interior token both parsers return no
descriptor, but the error names the wrong token. In `parseInput` the message
is built from `fPart`, the last token (the input format), and in `parseOutput`
from `fPart`, the first token (the output format); the unknown modifier `zstd`
occurs in neither message. -/
theorem C6_unknown_modifier_names_other_token :
    parseInput demoParser () "tcp|zstd|http" st0 =
      (.err (.leaf "invalid modifier: http"), ⟨(), [.source "tcp", .inputFormat "http"]⟩) ∧
    ¬ ("zstd".data <:+: "invalid modifier: http".data) ∧
    parseOutput demoParser () "json|zstd|gcs" st0 =
      (.err (.leaf "invalid modifier: json"), ⟨(), [.outputFormat "json", .sink "gcs"]⟩) ∧
    ¬ ("zstd".data <:+: "invalid modifier: json".data) := by
  decide

/-- C7: an unknown head or tail token of a non-empty input line gives a
grammar error naming the token and its role. If the first token `t` is not a
key of `Sources`, `parseInput` returns no Input and the error
`invalid source: t`, having called no constructor; if the first token resolves
and its constructor succeeds but the last token `u` is not a key of
`InputFormats`, it returns no Input and the error `invalid input format: u`,
having called the source constructor only. -/
theorem C7_unknown_head_or_tail {Ctx W Src IMod IFmt OFmt OMod Snk : Type}
    (p : Parser Ctx W Src IMod IFmt OFmt OMod Snk) (ctx : Ctx) (line : String)
    (st : St W CtorCall) (hne : line ≠ "") :
    (∀ t : String, (stringsSplit line Separator).head? = some t → p.Sources t = none →
      parseInput p ctx line st = (.err (errorsErrorfS "invalid source: " t), st) ∧
      (errorsErrorfS "invalid source: " t).Error = "invalid source: " ++ t) ∧
    (∀ (t u : String) (sCtor : Ctor Ctx W Src) (s : Src) (w1 : W),
      (stringsSplit line Separator).head? = some t →
      (stringsSplit line Separator).getLast? = some u →
      p.Sources t = some sCtor → sCtor ctx st.world = (.ok s, w1) →
      p.InputFormats u = none →
      parseInput p ctx line st =
        (.err (errorsErrorfS "invalid input format: " u), ⟨w1, st.calls ++ [.source t]⟩) ∧
      (errorsErrorfS "invalid input format: " u).Error = "invalid input format: " ++ u) := by
  refine ⟨?_, ?_⟩
  · intro t ht hS
    rw [List.head?_eq_getElem?] at ht
    refine ⟨?_, rfl⟩
    unfold parseInput
    simp only [hne, if_false, ht, hS]
  · intro t u sCtor s w1 ht hu hS hs hF
    rw [List.head?_eq_getElem?] at ht
    rw [List.getLast?_eq_getElem?] at hu
    refine ⟨?_, rfl⟩
    unfold parseInput
    simp only [hne, if_false, ht, hS, callCtor, hs, hu, hF]

/-- C7 at `foo|http` (unknown source `foo`) and at `tcp|foo` (unknown input
format `foo`) over `demoParser`. -/
theorem C7_unknown_head_or_tail_witness :
    parseInput demoParser () "foo|http" st0 = (.err (.leaf "invalid source: foo"), st0) ∧
    parseInput demoParser () "tcp|foo" st0 =
      (.err (.leaf "invalid input format: foo"), ⟨(), [.source "tcp"]⟩) :=
  ⟨((C7_unknown_head_or_tail demoParser () "foo|http" st0 (by decide)).1 "foo"
      (by decide) rfl).1,
    ((C7_unknown_head_or_tail demoParser () "tcp|foo" st0 (by decide)).2 "tcp" "foo"
      (okCtor "source tcp") "source tcp" () (by decide) (by decide) rfl rfl rfl).1⟩

/-- C8 (defect): a one-token line whose token is registered both as a source
and as an input format, with constructors that succeed, makes `parseInput`
panic on the slice expression `parts[1 : len(parts)-1]`, which is `parts[1:0]`,
after both constructors have been called; it returns neither an error nor an
Input. -/
theorem C8_one_token_line_panics :
    stringsSplit "raw" Separator = ["raw"] ∧
    parseInput sameNameParser () "raw" st0 =
      (.panic "slice bounds out of range", ⟨(), [.source "raw", .inputFormat "raw"]⟩) := by
  decide

/-- C9: the empty line is rejected before any lookup. For every registry,
`parseInput` on the empty line returns no Input and the error `empty input`,
and `parseOutput` returns no Output and the error `empty output`; the world
and the constructor log are untouched, and neither error is an
`invalid ...` lookup error, whatever the role and the token. -/
theorem C9_empty_line_rejected {Ctx W Src IMod IFmt OFmt OMod Snk : Type}
    (p : Parser Ctx W Src IMod IFmt OFmt OMod Snk) (ctx : Ctx) (st : St W CtorCall) :
    parseInput p ctx "" st = (.err (errorsNew "empty input"), st) ∧
    parseOutput p ctx "" st = (.err (errorsNew "empty output"), st) ∧
    (errorsNew "empty input").Error = "empty input" ∧
    (errorsNew "empty output").Error = "empty output" ∧
    ∀ role t : String,
      errorsNew "empty input" ≠ errorsErrorfS ("invalid " ++ role) t ∧
      errorsNew "empty output" ≠ errorsErrorfS ("invalid " ++ role) t := by
  refine ⟨by simp [parseInput], by simp [parseOutput], rfl, rfl, ?_⟩
  intro role t
  constructor
  · intro h
    simp only [errorsNew, errorsErrorfS, GoError.leaf.injEq] at h
    have := congrArg String.data h
    simp [String.data_append] at this
  · intro h
    simp only [errorsNew, errorsErrorfS, GoError.leaf.injEq] at h
    have := congrArg String.data h
    simp [String.data_append] at this

/-- C10: `Parse` accumulates the outputs in declaration order. If
`parseInput` succeeds on the input line with `inp`, and `parseOutput` succeeds
on each output line in turn (the `i`-th in the state the previous one left)
with `outs i`, then `Parse` returns, with a nil error, the Flow whose Input is
`inp` and whose Outputs are `outs 0, ..., outs (n-1)`, as many as the output
lines. -/
theorem C10_parse_outputs_in_order {Ctx W Src IMod IFmt OFmt OMod Snk : Type}
    (p : Parser Ctx W Src IMod IFmt OFmt OMod Snk) (ctx : Ctx) (inputLine : String)
    (outputLines : List String) (st : St W CtorCall) (inp : Input Src IMod IFmt)
    (sts : Nat → St W CtorCall) (outs : Nat → Output OFmt OMod Snk)
    (hin : parseInput p ctx inputLine st = (.ok inp, sts 0))
    (hout : ∀ (i : Nat) (hi : i < outputLines.length),
      parseOutput p ctx outputLines[i] (sts i) = (.ok (outs i), sts (i + 1))) :
    Parse p ctx inputLine outputLines st =
        (.ok { Input := inp, Outputs := (List.range outputLines.length).map outs },
          sts outputLines.length) ∧
      ((List.range outputLines.length).map outs).length = outputLines.length ∧
      ∀ (i : Nat), i < outputLines.length →
        ((List.range outputLines.length).map outs)[i]? = some (outs i) := by
  refine ⟨?_, by simp, ?_⟩
  · rw [Parse, hin]
    simp only []
    rw [parseOutputsLoop_ok p ctx outputLines [] sts outs hout]
    simp
  · intro i hi
    simp [hi]

/-- C10 at the input `tcp|http` with the outputs `json|gzip|gcs` and
`http|har` over `demoParser`. -/
theorem C10_parse_outputs_in_order_witness :
    Parse demoParser () "tcp|http" ["json|gzip|gcs", "http|har"] st0 =
      (.ok { Input := ⟨"source tcp", [], "iformat http"⟩,
             Outputs := (List.range ["json|gzip|gcs", "http|har"].length).map demoOutputs },
        demoStates ["json|gzip|gcs", "http|har"].length) :=
  (C10_parse_outputs_in_order demoParser () "tcp|http" ["json|gzip|gcs", "http|har"] st0
    ⟨"source tcp", [], "iformat http"⟩ demoStates demoOutputs rfl
    (fun i hi =>
      match i, hi with
      | 0, _ => rfl
      | 1, _ => rfl
      | n + 2, h => absurd h (by simp))).1

/-! ## Modifier chains: the write side and concatenation -/

/-- The loop of `OutputModifiers.Wrap` entered at `k` computes the nested call
of the first `k` modifiers, makes exactly its calls, and never panics. -/
theorem outputWrapLoop_eq_nested {W R : Type} (os : OutputModifiers W R) (k : Nat)
    (hk : k ≤ os.length) (w : R) (wd : W) (cs : List (Call R)) :
    OutputModifiers.wrapLoop os k w ⟨wd, cs⟩ =
      match nestedWrap ((os.take k).map OutputModifier.asInput) w wd with
      | (.ok w1, wd1) =>
        (.ok w1, ⟨wd1, cs ++ nestedCalls 0 ((os.take k).map OutputModifier.asInput) w wd⟩)
      | (.error e, wd1) =>
        (.err (fmtErrorfW "failed to wrap output writer: " e),
          ⟨wd1, cs ++ nestedCalls 0 ((os.take k).map OutputModifier.asInput) w wd⟩) := by
  induction k generalizing w wd cs with
  | zero => simp [OutputModifiers.wrapLoop, nestedWrap, nestedCalls]
  | succ k ih =>
    have hlt : k < os.length := hk
    have hget : os[k]? = some os[k] := List.getElem?_eq_getElem hlt
    have hlen : ((List.take k os).map OutputModifier.asInput).length = k := by simp; omega
    rw [OutputModifiers.wrapLoop, List.take_succ, hget]
    simp only [Option.toList, List.map_append, List.map_cons, List.map_nil, nestedWrap_append,
      nestedCalls_append, nestedWrap, nestedCalls, hlen, Nat.zero_add, List.nil_append,
      OutputModifier.asInput]
    rcases h : os[k].Wrap w wd with ⟨res, wd1⟩
    cases res with
    | error e => simp
    | ok w1 =>
      simp only []
      rw [ih (by omega)]
      rcases h2 : nestedWrap (List.map OutputModifier.asInput (List.take k os)) w1 wd1
        with ⟨res2, wd2⟩
      cases res2 <;> simp

/-- Method `OutputModifiers.Wrap` against the nested call over the whole list. -/
theorem OutputWrap_eq_nested {W R : Type} (os : OutputModifiers W R) (w : R) (wd : W)
    (cs : List (Call R)) :
    OutputModifiers.Wrap os w ⟨wd, cs⟩ =
      match nestedWrap (os.map OutputModifier.asInput) w wd with
      | (.ok w1, wd1) =>
        (.ok w1, ⟨wd1, cs ++ nestedCalls 0 (os.map OutputModifier.asInput) w wd⟩)
      | (.error e, wd1) =>
        (.err (fmtErrorfW "failed to wrap output writer: " e),
          ⟨wd1, cs ++ nestedCalls 0 (os.map OutputModifier.asInput) w wd⟩) := by
  have h := outputWrapLoop_eq_nested os os.length (Nat.le_refl _) w wd cs
  rw [List.take_length] at h
  exact h

/-- Raising the base index of the nested call's log shifts every logged call. -/
theorem nestedCalls_shift {W R : Type} (ms : List (InputModifier W R)) (base n : Nat)
    (r : R) (w : W) :
    nestedCalls (base + n) ms r w = (nestedCalls base ms r w).map (Call.shift n) := by
  induction ms generalizing base with
  | nil => simp [nestedCalls]
  | cons m ms ih =>
    have hb : base + n + 1 = base + 1 + n := by omega
    rw [nestedCalls, nestedCalls, hb, ih (base + 1)]
    rcases h : nestedWrap ms r w with ⟨res, w1⟩
    cases res <;> simp [Call.shift]

/-- An output modifier list that corresponds, element by element, to an input
modifier list with the same `Wrap` behaviour is that list read as inputs. -/
theorem map_asInput_of_forall₂ {W R : Type} (os : OutputModifiers W R)
    (is : InputModifiers W R)
    (h : List.Forall₂ (fun o i => ∀ r w, OutputModifier.Wrap o r w = InputModifier.Wrap i r w)
      os is) :
    os.map OutputModifier.asInput = is := by
  induction h with
  | nil => rfl
  | @cons o i os2 is2 hoi _ ih =>
    rw [List.map_cons, ih]
    congr 1
    rcases i with ⟨iw⟩
    have : o.Wrap = iw := by
      funext r w
      exact hoi r w
    simp [OutputModifier.asInput, this]

/-- C14: the write side runs the same algorithm as the read side. If the
output modifiers `os` correspond one by one to the input modifiers `is` with
the same `Wrap` behaviour, then on every stream and state
`OutputModifiers.Wrap` and `InputModifiers.Wrap` leave the same world and the
same call log (the same `Wrap` calls at the same indices in the same order),
succeed together with the same resulting stream, and fail together on the same
underlying error, wrapped as `failed to wrap output writer: ...` on the write
side; the write side always returns either the wrapped writer with a nil
error or no writer with that error. -/
theorem C14_output_wrap_same_algorithm {W R : Type} (os : OutputModifiers W R)
    (is : InputModifiers W R)
    (hcorr : List.Forall₂
      (fun o i => ∀ r w, OutputModifier.Wrap o r w = InputModifier.Wrap i r w) os is)
    (s : R) (st : St W (Call R)) :
    (OutputModifiers.Wrap os s st).2 = (InputModifiers.Wrap is s st).2 ∧
    (∀ s1, (OutputModifiers.Wrap os s st).1 = .ok s1 ↔
      (InputModifiers.Wrap is s st).1 = .ok s1) ∧
    (∀ e, (OutputModifiers.Wrap os s st).1 =
        .err (fmtErrorfW "failed to wrap output writer: " e) ↔
      (InputModifiers.Wrap is s st).1 =
        .err (fmtErrorfW "failed to wrap input writer: " e)) ∧
    ((∃ s1, (OutputModifiers.Wrap os s st).1 = .ok s1) ∨
      ∃ e, (OutputModifiers.Wrap os s st).1 =
        .err (fmtErrorfW "failed to wrap output writer: " e)) := by
  rcases st with ⟨w, cs⟩
  rw [OutputWrap_eq_nested, Wrap_eq_nested, map_asInput_of_forall₂ os is hcorr]
  rcases h : nestedWrap is s w with ⟨res, w1⟩
  cases res with
  | ok s1 => simp
  | error e0 =>
    refine ⟨rfl, by simp, ?_, Or.inr ⟨e0, rfl⟩⟩
    intro e
    simp only [Result.err.injEq, fmtErrorfW, GoError.wrap.injEq]
    constructor
    · rintro ⟨-, rfl⟩
      exact ⟨rfl, rfl⟩
    · rintro ⟨-, rfl⟩
      exact ⟨rfl, rfl⟩

/-- C14 at the lists `[M1, M2]` of tagging modifiers on either side. -/
theorem C14_output_wrap_same_algorithm_witness :
    (OutputModifiers.Wrap [tagOutputModifier "M1", tagOutputModifier "M2"] ["sink"]
        ⟨[], []⟩).2 =
      (InputModifiers.Wrap [tagModifier "M1", tagModifier "M2"] ["sink"] ⟨[], []⟩).2 ∧
    ((OutputModifiers.Wrap [tagOutputModifier "M1", tagOutputModifier "M2"] ["sink"]
        ⟨[], []⟩).1 = .ok ["M1", "M2", "sink"] ↔
      (InputModifiers.Wrap [tagModifier "M1", tagModifier "M2"] ["sink"] ⟨[], []⟩).1 =
        .ok ["M1", "M2", "sink"]) :=
  ⟨(C14_output_wrap_same_algorithm [tagOutputModifier "M1", tagOutputModifier "M2"]
      [tagModifier "M1", tagModifier "M2"]
      (List.Forall₂.cons (fun _ _ => rfl) (List.Forall₂.cons (fun _ _ => rfl) List.Forall₂.nil))
      ["sink"] ⟨[], []⟩).1,
    (C14_output_wrap_same_algorithm [tagOutputModifier "M1", tagOutputModifier "M2"]
      [tagModifier "M1", tagModifier "M2"]
      (List.Forall₂.cons (fun _ _ => rfl) (List.Forall₂.cons (fun _ _ => rfl) List.Forall₂.nil))
      ["sink"] ⟨[], []⟩).2.1 ["M1", "M2", "sink"]⟩

/-- C17: wrapping distributes over concatenation of modifier lists, on the
read side and on the write side. If wrapping `r` with `ys` alone fails, then
wrapping with `xs ++ ys` fails with the same error and the same world, having
made only the calls of `ys` (at their indices in `xs ++ ys`), none of `xs`; if
wrapping with `ys` alone returns `r1`, then wrapping with `xs ++ ys` is
wrapping `r1` with `xs`, started in the state `ys` left. -/
theorem C17_wrap_distributes_over_append {W R : Type} (xs ys : InputModifiers W R)
    (oxs oys : OutputModifiers W R) (r : R) (w : W) (cs : List (Call R)) :
    (∀ e w1 new, InputModifiers.Wrap ys r ⟨w, cs⟩ = (.err e, ⟨w1, cs ++ new⟩) →
      InputModifiers.Wrap (xs ++ ys) r ⟨w, cs⟩ =
        (.err e, ⟨w1, cs ++ new.map (Call.shift xs.length)⟩)) ∧
    (∀ r1 w1 new, InputModifiers.Wrap ys r ⟨w, cs⟩ = (.ok r1, ⟨w1, cs ++ new⟩) →
      InputModifiers.Wrap (xs ++ ys) r ⟨w, cs⟩ =
        InputModifiers.Wrap xs r1 ⟨w1, cs ++ new.map (Call.shift xs.length)⟩) ∧
    (∀ e w1 new, OutputModifiers.Wrap oys r ⟨w, cs⟩ = (.err e, ⟨w1, cs ++ new⟩) →
      OutputModifiers.Wrap (oxs ++ oys) r ⟨w, cs⟩ =
        (.err e, ⟨w1, cs ++ new.map (Call.shift oxs.length)⟩)) ∧
    (∀ r1 w1 new, OutputModifiers.Wrap oys r ⟨w, cs⟩ = (.ok r1, ⟨w1, cs ++ new⟩) →
      OutputModifiers.Wrap (oxs ++ oys) r ⟨w, cs⟩ =
        OutputModifiers.Wrap oxs r1 ⟨w1, cs ++ new.map (Call.shift oxs.length)⟩) := by
  refine ⟨?_, ?_, ?_, ?_⟩
  · intro e w1 new h
    rw [Wrap_eq_nested] at h
    rw [Wrap_eq_nested, nestedWrap_append, nestedCalls_append, nestedCalls_shift]
    rcases h2 : nestedWrap ys r w with ⟨res, w2⟩
    rw [h2] at h
    cases res with
    | ok r2 => simp at h
    | error e2 =>
      simp only [Prod.mk.injEq, Result.err.injEq, St.mk.injEq, List.append_cancel_left_eq] at h
      obtain ⟨he, hw, hnew⟩ := h
      simp [he, hw, hnew]
  · intro r1 w1 new h
    rw [Wrap_eq_nested] at h
    rw [Wrap_eq_nested, Wrap_eq_nested, nestedWrap_append, nestedCalls_append,
      nestedCalls_shift]
    rcases h2 : nestedWrap ys r w with ⟨res, w2⟩
    rw [h2] at h
    cases res with
    | error e2 => simp at h
    | ok r2 =>
      simp only [Prod.mk.injEq, Result.ok.injEq, St.mk.injEq, List.append_cancel_left_eq] at h
      obtain ⟨hr, hw, hnew⟩ := h
      subst hr hw hnew
      rcases h3 : nestedWrap xs r2 w2 with ⟨res3, w3⟩
      cases res3 <;> simp [h3]
  · intro e w1 new h
    rw [OutputWrap_eq_nested] at h
    rw [OutputWrap_eq_nested, List.map_append, nestedWrap_append, nestedCalls_append,
      nestedCalls_shift, List.length_map]
    rcases h2 : nestedWrap (oys.map OutputModifier.asInput) r w with ⟨res, w2⟩
    rw [h2] at h
    cases res with
    | ok r2 => simp at h
    | error e2 =>
      simp only [Prod.mk.injEq, Result.err.injEq, St.mk.injEq, List.append_cancel_left_eq] at h
      obtain ⟨he, hw, hnew⟩ := h
      simp [he, hw, hnew]
  · intro r1 w1 new h
    rw [OutputWrap_eq_nested] at h
    rw [OutputWrap_eq_nested, OutputWrap_eq_nested, List.map_append, nestedWrap_append,
      nestedCalls_append, nestedCalls_shift, List.length_map]
    rcases h2 : nestedWrap (oys.map OutputModifier.asInput) r w with ⟨res, w2⟩
    rw [h2] at h
    cases res with
    | error e2 => simp at h
    | ok r2 =>
      simp only [Prod.mk.injEq, Result.ok.injEq, St.mk.injEq, List.append_cancel_left_eq] at h
      obtain ⟨hr, hw, hnew⟩ := h
      subst hr hw hnew
      rcases h3 : nestedWrap (oxs.map OutputModifier.asInput) r2 w2 with ⟨res3, w3⟩
      cases res3 <;> simp [h3]

/-- C17 with `xs = [M1]`: on the read side a failing `ys = [M2]` fails
`xs ++ ys` with the one call of `M2`, at index 1, and a succeeding `ys = [M3]`
hands `M3(src)` to `xs`; likewise on the write side. -/
theorem C17_wrap_distributes_over_append_witness :
    InputModifiers.Wrap ([tagModifier "M1"] ++ [failModifier "M2"]) ["src"] ⟨[], []⟩ =
      (.err (fmtErrorfW "failed to wrap input writer: " (.leaf "M2 cannot wrap")),
        ⟨["M2"], [] ++ [Call.wrap 0 ["src"]].map (Call.shift [tagModifier "M1"].length)⟩) ∧
    InputModifiers.Wrap ([tagModifier "M1"] ++ [tagModifier "M3"]) ["src"] ⟨[], []⟩ =
      InputModifiers.Wrap [tagModifier "M1"] ["M3", "src"]
        ⟨["M3"], [] ++ [Call.wrap 0 ["src"]].map (Call.shift [tagModifier "M1"].length)⟩ ∧
    OutputModifiers.Wrap ([tagOutputModifier "M1"] ++ [failOutputModifier "M2"]) ["sink"]
        ⟨[], []⟩ =
      (.err (fmtErrorfW "failed to wrap output writer: " (.leaf "M2 cannot wrap")),
        ⟨["M2"],
          [] ++ [Call.wrap 0 ["sink"]].map (Call.shift [tagOutputModifier "M1"].length)⟩) ∧
    OutputModifiers.Wrap ([tagOutputModifier "M1"] ++ [tagOutputModifier "M3"]) ["sink"]
        ⟨[], []⟩ =
      OutputModifiers.Wrap [tagOutputModifier "M1"] ["M3", "sink"]
        ⟨["M3"],
          [] ++ [Call.wrap 0 ["sink"]].map (Call.shift [tagOutputModifier "M1"].length)⟩ :=
  ⟨(C17_wrap_distributes_over_append [tagModifier "M1"] [failModifier "M2"] [] []
      ["src"] [] []).1 _ ["M2"] [Call.wrap 0 ["src"]] rfl,
    (C17_wrap_distributes_over_append [tagModifier "M1"] [tagModifier "M3"] [] []
      ["src"] [] []).2.1 ["M3", "src"] ["M3"] [Call.wrap 0 ["src"]] rfl,
    (C17_wrap_distributes_over_append [] [] [tagOutputModifier "M1"]
      [failOutputModifier "M2"] ["sink"] [] []).2.2.1 _ ["M2"] [Call.wrap 0 ["sink"]] rfl,
    (C17_wrap_distributes_over_append [] [] [tagOutputModifier "M1"]
      [tagOutputModifier "M3"] ["sink"] [] []).2.2.2 ["M3", "sink"] ["M3"]
      [Call.wrap 0 ["sink"]] rfl⟩

/-! ## Parser: the write side, runs that stop early -/

section parserLemmas

variable {Ctx W Src IMod IFmt OFmt OMod Snk : Type}

/-- A constructor call adds exactly its own entry to the log. -/
theorem callCtor_calls {α : Type} (c : CtorCall) (ctor : Ctor Ctx W α) (ctx : Ctx)
    (st st1 : St W CtorCall) (res : Except GoError α)
    (h : callCtor c ctor ctx st = (res, st1)) : st1.calls = st.calls ++ [c] := by
  simp only [callCtor, Prod.mk.injEq] at h
  rw [← h.2]

/-- The run of `parseOutput` on a non-empty line of at least two tokens. -/
theorem parseOutput_of_split (p : Parser Ctx W Src IMod IFmt OFmt OMod Snk) (ctx : Ctx)
    (line : String) (st : St W CtorCall) (hd : String) (mid : List String) (tl : String)
    (hne : line ≠ "") (hsplit : stringsSplit line Separator = hd :: (mid ++ [tl])) :
    parseOutput p ctx line st =
      match p.OutputFormats hd with
      | none => (.err (errorsErrorfS "invalid output format: " hd), st)
      | some fCtor =>
        match callCtor (.outputFormat hd) fCtor ctx st with
        | (.error err, st1) =>
          (.err (errorsErrorfV "failed to create output format: " err), st1)
        | (.ok f, st1) =>
          match p.Sinks tl with
          | none => (.err (errorsErrorfS "invalid sink: " tl), st1)
          | some sCtor =>
            match callCtor (.sink tl) sCtor ctx st1 with
            | (.error err, st2) => (.err (errorsErrorfV "failed to create sink: " err), st2)
            | (.ok s, st2) =>
              match parseOutputLoop p ctx hd mid [] st2 with
              | (.ok mos, st3) => (.ok (NewOutput f mos s), st3)
              | (.err e, st3) => (.err e, st3)
              | (.panic msg, st3) => (.panic msg, st3) := by
  unfold parseOutput
  simp only [hne, if_false, hsplit, getElem?_last_of_split, goSlice_interior,
    List.getElem?_cons_zero]

/-- A successful run of the modifier loop of `parseOutput`: one constructor
call per token, each in the state the previous one left, the values appended
to `mos` in token order. -/
theorem parseOutputLoop_ok (p : Parser Ctx W Src IMod IFmt OFmt OMod Snk) (ctx : Ctx)
    (fPart : String) (toks : List String) (mos : List OMod) (st : St W CtorCall)
    (out : List OMod) (st' : St W CtorCall)
    (h : parseOutputLoop p ctx fPart toks mos st = (.ok out, st')) :
    ∃ (new : List OMod) (sts : Nat → St W CtorCall),
      out = mos ++ new ∧ new.length = toks.length ∧ sts 0 = st ∧ sts toks.length = st' ∧
      ∀ (i : Nat) (hi : i < toks.length), ∃ c m,
        p.OutputModifiers toks[i] = some c ∧ new[i]? = some m ∧
        callCtor (.outputModifier toks[i]) c ctx (sts i) = (.ok m, sts (i + 1)) := by
  induction toks generalizing mos st with
  | nil =>
    simp only [parseOutputLoop, Prod.mk.injEq, Result.ok.injEq] at h
    exact ⟨[], fun _ => st, by simp [h.1], rfl, rfl, h.2, fun i hi => by simp at hi⟩
  | cons tok rest ih =>
    rw [parseOutputLoop] at h
    cases hOM : p.OutputModifiers tok with
    | none => simp [hOM] at h
    | some c =>
      simp only [hOM] at h
      rcases hc : callCtor (.outputModifier tok) c ctx st with ⟨res, st1⟩
      rw [hc] at h
      cases res with
      | error e => simp at h
      | ok wc =>
        obtain ⟨new, sts, hout, hlen, h0, hn, hstep⟩ := ih (mos ++ [wc]) st1 h
        refine ⟨wc :: new, fun i => match i with | 0 => st | j + 1 => sts j, ?_, ?_, rfl, ?_, ?_⟩
        · simp [hout]
        · simp [hlen]
        · simpa using hn
        · intro i hi
          cases i with
          | zero =>
            refine ⟨c, wc, by simpa using hOM, by simp, ?_⟩
            simpa [h0] using hc
          | succ j =>
            obtain ⟨c2, m2, hc2, hm2, hcall⟩ := hstep j (by simpa using hi)
            exact ⟨c2, m2, by simpa using hc2, by simpa using hm2, by simpa using hcall⟩

/-- The modifier loop of `parseInput` over tokens whose constructors all
succeed: the loop goes on with the rest of the tokens, the values appended,
and the log has grown by one entry per token, in token order. -/
theorem parseInputLoop_pre (p : Parser Ctx W Src IMod IFmt OFmt OMod Snk) (ctx : Ctx)
    (fPart : String) (pre : List String) (sts : Nat → St W CtorCall)
    (h : ∀ (i : Nat) (hi : i < pre.length), ∃ c m,
      p.InputModifiers pre[i] = some c ∧
      callCtor (.inputModifier pre[i]) c ctx (sts i) = (.ok m, sts (i + 1))) :
    ∃ ms : List IMod, ms.length = pre.length ∧
      (sts pre.length).calls = (sts 0).calls ++ pre.map CtorCall.inputModifier ∧
      ∀ (rest : List String) (mis : List IMod),
        parseInputLoop p ctx fPart (pre ++ rest) mis (sts 0) =
          parseInputLoop p ctx fPart rest (mis ++ ms) (sts pre.length) := by
  induction pre generalizing sts with
  | nil => exact ⟨[], rfl, by simp, fun rest mis => by simp⟩
  | cons tok pre ih =>
    obtain ⟨c, m, hc, hcall⟩ := h 0 (by simp)
    simp only [List.getElem_cons_zero, Nat.zero_add] at hc hcall
    have hrest : ∀ (i : Nat) (hi : i < pre.length), ∃ c m,
        p.InputModifiers pre[i] = some c ∧
        callCtor (.inputModifier pre[i]) c ctx (sts (i + 1)) = (.ok m, sts (i + 1 + 1)) := by
      intro i hi
      have := h (i + 1) (by simpa using hi)
      simpa using this
    obtain ⟨ms, hlen, hcalls, hloop⟩ := ih (fun i => sts (i + 1)) hrest
    simp only [Nat.zero_add] at hcalls
    refine ⟨m :: ms, by simp [hlen], ?_, ?_⟩
    · rw [List.length_cons, hcalls, callCtor_calls _ _ _ _ _ _ hcall]
      simp
    · intro rest mis
      rw [List.cons_append, parseInputLoop, hc]
      simp only [hcall]
      rw [hloop rest (mis ++ [m])]
      simp

/-- The modifier loop of `parseOutput` over tokens whose constructors all
succeed: the loop goes on with the rest of the tokens, the values appended,
and the log has grown by one entry per token, in token order. -/
theorem parseOutputLoop_pre (p : Parser Ctx W Src IMod IFmt OFmt OMod Snk) (ctx : Ctx)
    (fPart : String) (pre : List String) (sts : Nat → St W CtorCall)
    (h : ∀ (i : Nat) (hi : i < pre.length), ∃ c m,
      p.OutputModifiers pre[i] = some c ∧
      callCtor (.outputModifier pre[i]) c ctx (sts i) = (.ok m, sts (i + 1))) :
    ∃ ms : List OMod, ms.length = pre.length ∧
      (sts pre.length).calls = (sts 0).calls ++ pre.map CtorCall.outputModifier ∧
      ∀ (rest : List String) (mos : List OMod),
        parseOutputLoop p ctx fPart (pre ++ rest) mos (sts 0) =
          parseOutputLoop p ctx fPart rest (mos ++ ms) (sts pre.length) := by
  induction pre generalizing sts with
  | nil => exact ⟨[], rfl, by simp, fun rest mos => by simp⟩
  | cons tok pre ih =>
    obtain ⟨c, m, hc, hcall⟩ := h 0 (by simp)
    simp only [List.getElem_cons_zero, Nat.zero_add] at hc hcall
    have hrest : ∀ (i : Nat) (hi : i < pre.length), ∃ c m,
        p.OutputModifiers pre[i] = some c ∧
        callCtor (.outputModifier pre[i]) c ctx (sts (i + 1)) = (.ok m, sts (i + 1 + 1)) := by
      intro i hi
      have := h (i + 1) (by simpa using hi)
      simpa using this
    obtain ⟨ms, hlen, hcalls, hloop⟩ := ih (fun i => sts (i + 1)) hrest
    simp only [Nat.zero_add] at hcalls
    refine ⟨m :: ms, by simp [hlen], ?_, ?_⟩
    · rw [List.length_cons, hcalls, callCtor_calls _ _ _ _ _ _ hcall]
      simp
    · intro rest mos
      rw [List.cons_append, parseOutputLoop, hc]
      simp only [hcall]
      rw [hloop rest (mos ++ [m])]
      simp

/-- The loop of `Parse` over output lines that all parse: it goes on with the
rest of the lines, their outputs appended. -/
theorem parseOutputsLoop_pre (p : Parser Ctx W Src IMod IFmt OFmt OMod Snk) (ctx : Ctx)
    (pre : List String) (sts : Nat → St W CtorCall)
    (h : ∀ (i : Nat) (hi : i < pre.length), ∃ o,
      parseOutput p ctx pre[i] (sts i) = (.ok o, sts (i + 1))) :
    ∃ outs : List (Output OFmt OMod Snk), outs.length = pre.length ∧
      ∀ (rest : List String) (acc : List (Output OFmt OMod Snk)),
        parseOutputsLoop p ctx (pre ++ rest) acc (sts 0) =
          parseOutputsLoop p ctx rest (acc ++ outs) (sts pre.length) := by
  induction pre generalizing sts with
  | nil => exact ⟨[], rfl, fun rest acc => by simp⟩
  | cons line pre ih =>
    obtain ⟨o, ho⟩ := h 0 (by simp)
    simp only [List.getElem_cons_zero, Nat.zero_add] at ho
    have hrest : ∀ (i : Nat) (hi : i < pre.length), ∃ o,
        parseOutput p ctx pre[i] (sts (i + 1)) = (.ok o, sts (i + 1 + 1)) := by
      intro i hi
      have := h (i + 1) (by simpa using hi)
      simpa using this
    obtain ⟨outs, hlen, hloop⟩ := ih (fun i => sts (i + 1)) hrest
    refine ⟨o :: outs, by simp [hlen], ?_⟩
    intro rest acc
    rw [List.cons_append, parseOutputsLoop, ho]
    simp only []
    rw [hloop rest (acc ++ [o])]
    simp

/-- A run of the loop of `Parse` that returns outputs has parsed every line
successfully, each in the state the previous one left. -/
theorem parseOutputsLoop_ok_inv (p : Parser Ctx W Src IMod IFmt OFmt OMod Snk) (ctx : Ctx)
    (lines : List String) (acc : List (Output OFmt OMod Snk)) (st : St W CtorCall)
    (outs : List (Output OFmt OMod Snk)) (st' : St W CtorCall)
    (h : parseOutputsLoop p ctx lines acc st = (.ok outs, st')) :
    ∃ sts : Nat → St W CtorCall, sts 0 = st ∧ sts lines.length = st' ∧
      ∀ (i : Nat) (hi : i < lines.length), ∃ o,
        parseOutput p ctx lines[i] (sts i) = (.ok o, sts (i + 1)) := by
  induction lines generalizing acc st with
  | nil =>
    simp only [parseOutputsLoop, Prod.mk.injEq] at h
    exact ⟨fun _ => st, rfl, h.2, fun i hi => by simp at hi⟩
  | cons line rest ih =>
    rw [parseOutputsLoop] at h
    rcases hl : parseOutput p ctx line st with ⟨res, st1⟩
    rw [hl] at h
    cases res with
    | err e => simp at h
    | panic msg => simp at h
    | ok o =>
      obtain ⟨sts, h0, hn, hstep⟩ := ih (acc ++ [o]) st1 h
      refine ⟨fun i => match i with | 0 => st | j + 1 => sts j, rfl, by simpa using hn, ?_⟩
      intro i hi
      cases i with
      | zero => exact ⟨o, by simpa [h0] using hl⟩
      | succ j =>
        obtain ⟨o2, ho2⟩ := hstep j (by simpa using hi)
        exact ⟨o2, by simpa using ho2⟩

/-- A run of the loop of `Parse` that returns an error has parsed the lines
before one line successfully and stopped in the state that line's failing
`parseOutput` left. -/
theorem parseOutputsLoop_err_inv (p : Parser Ctx W Src IMod IFmt OFmt OMod Snk) (ctx : Ctx)
    (lines : List String) (acc : List (Output OFmt OMod Snk)) (st : St W CtorCall)
    (e : GoError) (st' : St W CtorCall)
    (h : parseOutputsLoop p ctx lines acc st = (.err e, st')) :
    ∃ (pre : List String) (bad : String) (post : List String) (sts : Nat → St W CtorCall)
      (e0 : GoError),
      lines = pre ++ bad :: post ∧ sts 0 = st ∧
      (∀ (i : Nat) (hi : i < pre.length), ∃ o,
        parseOutput p ctx pre[i] (sts i) = (.ok o, sts (i + 1))) ∧
      parseOutput p ctx bad (sts pre.length) = (.err e0, st') ∧
      e = errorsErrorfV "failed to parse outputs: " e0 := by
  induction lines generalizing acc st with
  | nil => simp [parseOutputsLoop] at h
  | cons line rest ih =>
    rw [parseOutputsLoop] at h
    rcases hl : parseOutput p ctx line st with ⟨res, st1⟩
    rw [hl] at h
    cases res with
    | err e0 =>
      simp only [Prod.mk.injEq, Result.err.injEq] at h
      refine ⟨[], line, rest, fun _ => st, e0, rfl, rfl, fun i hi => by simp at hi, ?_, h.1.symm⟩
      rw [← h.2]
      exact hl
    | panic msg => simp at h
    | ok o =>
      obtain ⟨pre, bad, post, sts, e0, hlines, h0, hstep, hbad, he⟩ := ih (acc ++ [o]) st1 h
      refine ⟨line :: pre, bad, post, fun i => match i with | 0 => st | j + 1 => sts j, e0,
        by simp [hlines], rfl, ?_, by simpa using hbad, he⟩
      intro i hi
      cases i with
      | zero => exact ⟨o, by simpa [h0] using hl⟩
      | succ j =>
        obtain ⟨o2, ho2⟩ := hstep j (by simpa using hi)
        exact ⟨o2, by simpa using ho2⟩

end parserLemmas

/-- A successful `parseInput` on a line of at least two tokens has resolved
and constructed the head, then the tail, then every interior token in order. -/
theorem parseInput_ok_inv {Ctx W Src IMod IFmt OFmt OMod Snk : Type}
    (p : Parser Ctx W Src IMod IFmt OFmt OMod Snk) (ctx : Ctx) (line : String)
    (st : St W CtorCall) (inp : Input Src IMod IFmt) (st' : St W CtorCall)
    (hd : String) (mid : List String) (tl : String)
    (h : parseInput p ctx line st = (.ok inp, st'))
    (hsplit : stringsSplit line Separator = hd :: (mid ++ [tl])) :
    inp.Modifiers.length = mid.length ∧ (mid = [] → inp.Modifiers = []) ∧
    ∃ (sCtor : Ctor Ctx W Src) (fCtor : Ctor Ctx W IFmt) (stS : St W CtorCall)
      (sts : Nat → St W CtorCall),
      p.Sources hd = some sCtor ∧ p.InputFormats tl = some fCtor ∧
      callCtor (.source hd) sCtor ctx st = (.ok inp.Source, stS) ∧
      callCtor (.inputFormat tl) fCtor ctx stS = (.ok inp.Format, sts 0) ∧
      sts mid.length = st' ∧
      ∀ (i : Nat) (hi : i < mid.length), ∃ c m,
        p.InputModifiers mid[i] = some c ∧ inp.Modifiers[i]? = some m ∧
        callCtor (.inputModifier mid[i]) c ctx (sts i) = (.ok m, sts (i + 1)) := by
  have hne : line ≠ "" := by
    intro h0
    simp [parseInput, h0] at h
  rw [parseInput_of_split p ctx line st hd mid tl hne hsplit] at h
  cases hS : p.Sources hd with
  | none => simp [hS] at h
  | some sCtor =>
    simp only [hS] at h
    rcases hsc : callCtor (.source hd) sCtor ctx st with ⟨resS, stS⟩
    rw [hsc] at h
    cases resS with
    | error e => simp at h
    | ok s =>
      simp only [] at h
      cases hF : p.InputFormats tl with
      | none => simp [hF] at h
      | some fCtor =>
        simp only [hF] at h
        rcases hfc : callCtor (.inputFormat tl) fCtor ctx stS with ⟨resF, stF⟩
        rw [hfc] at h
        cases resF with
        | error e => simp at h
        | ok f =>
          simp only [] at h
          rcases hl : parseInputLoop p ctx tl mid [] stF with ⟨resL, stL⟩
          rw [hl] at h
          cases resL with
          | err e => simp at h
          | panic msg => simp at h
          | ok mis =>
            simp only [Prod.mk.injEq, Result.ok.injEq] at h
            obtain ⟨hinp, hst⟩ := h
            obtain ⟨new, sts, hout, hlen, h0, hn, hstep⟩ :=
              parseInputLoop_ok p ctx tl mid [] stF mis stL hl
            simp only [List.nil_append] at hout
            subst hout hinp hst
            refine ⟨hlen, ?_, sCtor, fCtor, stS, sts, rfl, rfl, hsc, ?_, hn, hstep⟩
            · intro hmid
              have : mis.length = 0 := by simpa [hmid] using hlen
              exact List.length_eq_zero.mp this
            · rw [h0]; exact hfc


/-- A non-empty list is one element, or a head, an interior and a last. -/
theorem list_one_or_split {α : Type} (l : List α) (hl : l ≠ []) :
    (∃ x, l = [x]) ∨ ∃ hd mid tl, l = hd :: (mid ++ [tl]) := by
  cases l with
  | nil => exact absurd rfl hl
  | cons hd t =>
    by_cases ht : t = []
    · exact Or.inl ⟨hd, by rw [ht]⟩
    · exact Or.inr ⟨hd, t.dropLast, t.getLast ht, by rw [List.dropLast_append_getLast ht]⟩

/-- On a line of one token `parseInput` never returns an Input. -/
theorem parseInput_single_not_ok {Ctx W Src IMod IFmt OFmt OMod Snk : Type}
    (p : Parser Ctx W Src IMod IFmt OFmt OMod Snk) (ctx : Ctx) (line : String)
    (st : St W CtorCall) (x : String) (hsplit : stringsSplit line Separator = [x])
    (inp : Input Src IMod IFmt) (st' : St W CtorCall) :
    parseInput p ctx line st ≠ (.ok inp, st') := by
  intro h
  unfold parseInput at h
  by_cases hne : line = ""
  · simp [hne] at h
  · simp only [hne, if_false, hsplit, List.getElem?_cons_zero, List.length_singleton,
      Nat.sub_self, goSlice] at h
    cases hS : p.Sources x with
    | none => simp [hS] at h
    | some sCtor =>
      simp only [hS] at h
      rcases hsc : callCtor (.source x) sCtor ctx st with ⟨resS, stS⟩
      rw [hsc] at h
      cases resS with
      | error e => simp at h
      | ok s =>
        simp only [] at h
        cases hF : p.InputFormats x with
        | none => simp [hF] at h
        | some fCtor =>
          simp only [hF] at h
          rcases hfc : callCtor (.inputFormat x) fCtor ctx stS with ⟨resF, stF⟩
          rw [hfc] at h
          cases resF with
          | error e => simp at h
          | ok f => simp at h

/-! ## Claims on parser.go, continued -/

/-- C13: on a line that splits into `hd`, the interior tokens `mid` and `tl`,
a successful `parseOutput` returns an Output whose format is the value of the
constructor registered in `OutputFormats` under `hd`, whose sink is the value
of the constructor registered in `Sinks` under `tl` (called next), and whose
modifier sequence has exactly as many entries as `mid`, the `i`-th being the
value of the constructor registered in `OutputModifiers` under the `i`-th
interior token, called in declaration order. -/
theorem C13_parseOutput_parts_in_order {Ctx W Src IMod IFmt OFmt OMod Snk : Type}
    (p : Parser Ctx W Src IMod IFmt OFmt OMod Snk) (ctx : Ctx) (line : String)
    (st : St W CtorCall) (out : Output OFmt OMod Snk) (st' : St W CtorCall)
    (hd : String) (mid : List String) (tl : String)
    (h : parseOutput p ctx line st = (.ok out, st'))
    (hsplit : stringsSplit line Separator = hd :: (mid ++ [tl])) :
    out.Modifiers.length = mid.length ∧ (mid = [] → out.Modifiers = []) ∧
    ∃ (fCtor : Ctor Ctx W OFmt) (sCtor : Ctor Ctx W Snk) (stF : St W CtorCall)
      (sts : Nat → St W CtorCall),
      p.OutputFormats hd = some fCtor ∧ p.Sinks tl = some sCtor ∧
      callCtor (.outputFormat hd) fCtor ctx st = (.ok out.Format, stF) ∧
      callCtor (.sink tl) sCtor ctx stF = (.ok out.Sink, sts 0) ∧
      sts mid.length = st' ∧
      ∀ (i : Nat) (hi : i < mid.length), ∃ c m,
        p.OutputModifiers mid[i] = some c ∧ out.Modifiers[i]? = some m ∧
        callCtor (.outputModifier mid[i]) c ctx (sts i) = (.ok m, sts (i + 1)) := by
  have hne : line ≠ "" := by
    intro h0
    simp [parseOutput, h0] at h
  rw [parseOutput_of_split p ctx line st hd mid tl hne hsplit] at h
  cases hS : p.OutputFormats hd with
  | none => simp [hS] at h
  | some sCtor =>
    simp only [hS] at h
    rcases hsc : callCtor (.outputFormat hd) sCtor ctx st with ⟨resS, stS⟩
    rw [hsc] at h
    cases resS with
    | error e => simp at h
    | ok s =>
      simp only [] at h
      cases hF : p.Sinks tl with
      | none => simp [hF] at h
      | some fCtor =>
        simp only [hF] at h
        rcases hfc : callCtor (.sink tl) fCtor ctx stS with ⟨resF, stF⟩
        rw [hfc] at h
        cases resF with
        | error e => simp at h
        | ok f =>
          simp only [] at h
          rcases hl : parseOutputLoop p ctx hd mid [] stF with ⟨resL, stL⟩
          rw [hl] at h
          cases resL with
          | err e => simp at h
          | panic msg => simp at h
          | ok mis =>
            simp only [Prod.mk.injEq, Result.ok.injEq] at h
            obtain ⟨hinp, hst⟩ := h
            obtain ⟨new, sts, hout, hlen, h0, hn, hstep⟩ :=
              parseOutputLoop_ok p ctx hd mid [] stF mis stL hl
            simp only [List.nil_append] at hout
            subst hout hinp hst
            refine ⟨hlen, ?_, sCtor, fCtor, stS, sts, rfl, rfl, hsc, ?_, hn, hstep⟩
            · intro hmid
              have : mis.length = 0 := by simpa [hmid] using hlen
              exact List.length_eq_zero.mp this
            · rw [h0]; exact hfc


/-- C13 at `json|gzip|gcs` over `demoParser`: format `json`, sink `gcs` and
exactly one modifier, built by the constructor of `gzip`. -/
theorem C13_parseOutput_parts_in_order_witness :
    (⟨"oformat json", ["omod gzip"], "sink gcs"⟩ : Output String String String).Modifiers.length
        = ["gzip"].length ∧
    ∃ (fCtor : Ctor Unit Unit String) (sCtor : Ctor Unit Unit String)
      (stF : St Unit CtorCall) (sts : Nat → St Unit CtorCall),
      demoParser.OutputFormats "json" = some fCtor ∧ demoParser.Sinks "gcs" = some sCtor ∧
      callCtor (.outputFormat "json") fCtor () st0 = (.ok "oformat json", stF) ∧
      callCtor (.sink "gcs") sCtor () stF = (.ok "sink gcs", sts 0) ∧
      sts ["gzip"].length = ⟨(), [.outputFormat "json", .sink "gcs", .outputModifier "gzip"]⟩ ∧
      ∀ (i : Nat) (hi : i < ["gzip"].length), ∃ c m,
        demoParser.OutputModifiers ["gzip"][i] = some c ∧
        (["omod gzip"] : List String)[i]? = some m ∧
        callCtor (.outputModifier ["gzip"][i]) c () (sts i) = (.ok m, sts (i + 1)) :=
  ⟨(C13_parseOutput_parts_in_order demoParser () "json|gzip|gcs" st0
      ⟨"oformat json", ["omod gzip"], "sink gcs"⟩
      ⟨(), [.outputFormat "json", .sink "gcs", .outputModifier "gzip"]⟩
      "json" ["gzip"] "gcs" rfl rfl).1,
    (C13_parseOutput_parts_in_order demoParser () "json|gzip|gcs" st0
      ⟨"oformat json", ["omod gzip"], "sink gcs"⟩
      ⟨(), [.outputFormat "json", .sink "gcs", .outputModifier "gzip"]⟩
      "json" ["gzip"] "gcs" rfl rfl).2.2⟩

/-- C15: tokens are matched exactly. Whenever `parseInput` succeeds on a
line, the line splits on the separator into a first piece, interior pieces and
a last piece (at least two pieces), the first piece is itself a key of
`Sources`, the last piece a key of `InputFormats` and every interior piece a
key of `InputModifiers`: the pieces are looked up as they stand, with no
trimming and no case folding. -/
theorem C15_tokens_matched_exactly {Ctx W Src IMod IFmt OFmt OMod Snk : Type}
    (p : Parser Ctx W Src IMod IFmt OFmt OMod Snk) (ctx : Ctx) (line : String)
    (st : St W CtorCall) (inp : Input Src IMod IFmt) (st' : St W CtorCall)
    (h : parseInput p ctx line st = (.ok inp, st')) :
    ∃ (hd : String) (mid : List String) (tl : String),
      stringsSplit line Separator = hd :: (mid ++ [tl]) ∧
      (p.Sources hd).isSome ∧ (p.InputFormats tl).isSome ∧
      ∀ t ∈ mid, (p.InputModifiers t).isSome := by
  rcases list_one_or_split _ (stringsSplit_ne_nil line Separator) with ⟨x, hx⟩ | ⟨hd, mid, tl, hs⟩
  · exact absurd h (parseInput_single_not_ok p ctx line st x hx inp st')
  · obtain ⟨-, -, sCtor, fCtor, stS, sts, hS, hF, -, -, -, hstep⟩ :=
      parseInput_ok_inv p ctx line st inp st' hd mid tl h hs
    refine ⟨hd, mid, tl, hs, by simp [hS], by simp [hF], ?_⟩
    intro t ht
    obtain ⟨i, hi, rfl⟩ := List.mem_iff_getElem.mp ht
    obtain ⟨c, m, hc, -, -⟩ := hstep i hi
    simp [hc]

/-- C15 at `gcs|gzip|json` over `demoParser`; the variants of `tcp|http` in
another case or with a blank around a token are rejected, since `TCP`, ` tcp`,
`tcp ` and `HTTP` are not registered. -/
theorem C15_tokens_matched_exactly_witness :
    (∃ (hd : String) (mid : List String) (tl : String),
      stringsSplit "gcs|gzip|json" Separator = hd :: (mid ++ [tl]) ∧
      (demoParser.Sources hd).isSome ∧ (demoParser.InputFormats tl).isSome ∧
      ∀ t ∈ mid, (demoParser.InputModifiers t).isSome) ∧
    parseInput demoParser () "TCP|http" st0 = (.err (.leaf "invalid source: TCP"), st0) ∧
    parseInput demoParser () " tcp|http" st0 = (.err (.leaf "invalid source:  tcp"), st0) ∧
    parseInput demoParser () "tcp |http" st0 = (.err (.leaf "invalid source: tcp "), st0) ∧
    parseInput demoParser () "tcp|HTTP" st0 =
      (.err (.leaf "invalid input format: HTTP"), ⟨(), [.source "tcp"]⟩) :=
  ⟨C15_tokens_matched_exactly demoParser () "gcs|gzip|json" st0
      ⟨"source gcs", ["imod gzip"], "iformat json"⟩
      ⟨(), [.source "gcs", .inputFormat "json", .inputModifier "gzip"]⟩ rfl,
    by decide, by decide, by decide, by decide⟩

/-- C19: `Parse` accepts an empty list of output lines. If `parseInput`
succeeds on the input line with `inp`, then `Parse` with no output line
returns, with a nil error, the Flow whose Input is `inp` and whose Outputs
sequence is empty, in the state `parseInput` left. -/
theorem C19_parse_no_output_lines {Ctx W Src IMod IFmt OFmt OMod Snk : Type}
    (p : Parser Ctx W Src IMod IFmt OFmt OMod Snk) (ctx : Ctx) (inputLine : String)
    (st : St W CtorCall) (inp : Input Src IMod IFmt) (st1 : St W CtorCall)
    (h : parseInput p ctx inputLine st = (.ok inp, st1)) :
    Parse p ctx inputLine [] st = (.ok { Input := inp, Outputs := [] }, st1) := by
  simp [Parse, h, parseOutputsLoop]

/-- C19 at the input line `tcp|http` over `demoParser`. -/
theorem C19_parse_no_output_lines_witness :
    Parse demoParser () "tcp|http" [] st0 =
      (.ok { Input := ⟨"source tcp", [], "iformat http"⟩, Outputs := [] },
        ⟨(), [.source "tcp", .inputFormat "http"]⟩) :=
  C19_parse_no_output_lines demoParser () "tcp|http" st0 ⟨"source tcp", [], "iformat http"⟩
    ⟨(), [.source "tcp", .inputFormat "http"]⟩ rfl

/-- What holds of `Parse` when every line parse returns: it returns a Flow
exactly when `parseInput` succeeds on the input line and `parseOutput`
succeeds on every output line in turn (each in the state the previous parse
left). If `parseInput` returns an error, `Parse` returns no Flow and the error
`failed to parse input: ...` in the state `parseInput` left. If the input line
and the output lines `pre` parse and `parseOutput` returns an error on the
next line `bad`, `Parse` returns no Flow and the error
`failed to parse outputs: ...` in the state that failing `parseOutput` left,
so the lines `post` after it are not parsed. A line parse that panics is not
covered by the last two parts. -/
theorem Parse_all_or_nothing_on_returns {Ctx W Src IMod IFmt OFmt OMod Snk : Type}
    (p : Parser Ctx W Src IMod IFmt OFmt OMod Snk) (ctx : Ctx) (inputLine : String)
    (outputLines : List String) (st : St W CtorCall) :
    ((∃ fl st', Parse p ctx inputLine outputLines st = (.ok fl, st')) ↔
      ∃ (inp : Input Src IMod IFmt) (sts : Nat → St W CtorCall),
        parseInput p ctx inputLine st = (.ok inp, sts 0) ∧
        ∀ (i : Nat) (hi : i < outputLines.length), ∃ o,
          parseOutput p ctx outputLines[i] (sts i) = (.ok o, sts (i + 1))) ∧
    (∀ e st1, parseInput p ctx inputLine st = (.err e, st1) →
      Parse p ctx inputLine outputLines st =
        (.err (errorsErrorfV "failed to parse input: " e), st1)) ∧
    (∀ (inp : Input Src IMod IFmt) (sts : Nat → St W CtorCall) (pre : List String)
      (bad : String) (post : List String) (e : GoError) (stE : St W CtorCall),
      outputLines = pre ++ bad :: post →
      parseInput p ctx inputLine st = (.ok inp, sts 0) →
      (∀ (i : Nat) (hi : i < pre.length), ∃ o,
        parseOutput p ctx pre[i] (sts i) = (.ok o, sts (i + 1))) →
      parseOutput p ctx bad (sts pre.length) = (.err e, stE) →
      Parse p ctx inputLine outputLines st =
        (.err (errorsErrorfV "failed to parse outputs: " e), stE)) := by
  refine ⟨⟨?_, ?_⟩, ?_, ?_⟩
  · rintro ⟨fl, st', h⟩
    rw [Parse] at h
    rcases hin : parseInput p ctx inputLine st with ⟨res, st1⟩
    rw [hin] at h
    cases res with
    | err e => simp at h
    | panic msg => simp at h
    | ok inp =>
      simp only [] at h
      rcases hl : parseOutputsLoop p ctx outputLines [] st1 with ⟨resL, st2⟩
      rw [hl] at h
      cases resL with
      | err e => simp at h
      | panic msg => simp at h
      | ok outs =>
        obtain ⟨sts, h0, -, hstep⟩ := parseOutputsLoop_ok_inv p ctx outputLines [] st1 outs st2 hl
        exact ⟨inp, sts, by rw [h0], hstep⟩
  · rintro ⟨inp, sts, hin, hstep⟩
    obtain ⟨outs, -, hloop⟩ := parseOutputsLoop_pre p ctx outputLines sts hstep
    have h := hloop [] []
    simp only [List.append_nil, List.nil_append, parseOutputsLoop] at h
    exact ⟨{ Input := inp, Outputs := outs }, sts outputLines.length, by simp [Parse, hin, h]⟩
  · intro e st1 hin
    simp [Parse, hin]
  · intro inp sts pre bad post e stE hlines hin hstep hbad
    obtain ⟨outs, -, hloop⟩ := parseOutputsLoop_pre p ctx pre sts hstep
    have h := hloop (bad :: post) []
    rw [parseOutputsLoop, hbad] at h
    simp only [] at h
    rw [Parse, hin, hlines]
    simp only []
    rw [h]

/-- C11 (defect): `Parse` is not all-or-nothing when a line parse panics.
Over a registry in which `raw` is both an output format and a sink, the input
line `raw|raw` parses, the output line `raw` fails, and `Parse` returns
neither a nil Flow with an error nor a Flow: it panics on the slice expression
`parts[1 : len(parts)-1]` of `parseOutput`, after the constructors of the
input line and the two constructors of the output line have been called. A
one-token input line `raw` makes `Parse` panic in the same way. -/
theorem C11_parse_panics_on_one_token_line :
    Parse sameNameParser () "raw|raw" ["raw"] st0 =
      (.panic "slice bounds out of range",
        ⟨(), [.source "raw", .inputFormat "raw", .outputFormat "raw", .sink "raw"]⟩) ∧
    parseOutput sameNameParser () "raw"
        ⟨(), [.source "raw", .inputFormat "raw"]⟩ =
      (.panic "slice bounds out of range",
        ⟨(), [.source "raw", .inputFormat "raw", .outputFormat "raw", .sink "raw"]⟩) ∧
    Parse sameNameParser () "raw" ["raw|raw"] st0 =
      (.panic "slice bounds out of range", ⟨(), [.source "raw", .inputFormat "raw"]⟩) := by
  decide

/-- C18: `parseInput` resolves and constructs in the order head, tail, then
the interior tokens left to right. On a non-empty line of at least two tokens
whose head resolves and constructs: if the tail is unknown, the call returns
its error with exactly the source constructor invoked; if the tail resolves
and constructs, the interior tokens before `bad` resolve and construct, and
`bad` is unknown, the call returns its error with the constructor invocations
exactly: source, input format, then the constructors of the interior tokens
before `bad`, in order. -/
theorem C18_parseInput_call_order {Ctx W Src IMod IFmt OFmt OMod Snk : Type}
    (p : Parser Ctx W Src IMod IFmt OFmt OMod Snk) (ctx : Ctx) (line : String)
    (st : St W CtorCall) (hd : String) (mid : List String) (tl : String)
    (sCtor : Ctor Ctx W Src) (s : Src) (s1 : St W CtorCall)
    (hne : line ≠ "") (hsplit : stringsSplit line Separator = hd :: (mid ++ [tl]))
    (hS : p.Sources hd = some sCtor)
    (hs : callCtor (.source hd) sCtor ctx st = (.ok s, s1)) :
    (p.InputFormats tl = none →
      parseInput p ctx line st = (.err (errorsErrorfS "invalid input format: " tl), s1) ∧
      s1.calls = st.calls ++ [.source hd]) ∧
    (∀ (fCtor : Ctor Ctx W IFmt) (f : IFmt) (sts : Nat → St W CtorCall)
      (pre : List String) (bad : String) (post : List String),
      p.InputFormats tl = some fCtor →
      callCtor (.inputFormat tl) fCtor ctx s1 = (.ok f, sts 0) →
      mid = pre ++ bad :: post →
      (∀ (i : Nat) (hi : i < pre.length), ∃ c m,
        p.InputModifiers pre[i] = some c ∧
        callCtor (.inputModifier pre[i]) c ctx (sts i) = (.ok m, sts (i + 1))) →
      p.InputModifiers bad = none →
      parseInput p ctx line st =
        (.err (errorsErrorfS "invalid modifier: " tl), sts pre.length) ∧
      (sts pre.length).calls =
        st.calls ++ [.source hd, .inputFormat tl] ++ pre.map CtorCall.inputModifier) := by
  have hs1 := callCtor_calls _ _ _ _ _ _ hs
  refine ⟨?_, ?_⟩
  · intro hF
    refine ⟨?_, hs1⟩
    rw [parseInput_of_split p ctx line st hd mid tl hne hsplit]
    simp only [hS, hs, hF]
  · intro fCtor f sts pre bad post hF hf hmid hpre hbad
    have hf1 := callCtor_calls _ _ _ _ _ _ hf
    obtain ⟨ms, -, hcalls, hloop⟩ := parseInputLoop_pre p ctx tl pre sts hpre
    refine ⟨?_, ?_⟩
    · rw [parseInput_of_split p ctx line st hd mid tl hne hsplit]
      simp only [hS, hs, hF, hf, hmid]
      rw [hloop (bad :: post) [], parseInputLoop, hbad]
    · rw [hcalls, hf1, hs1]
      simp

/-- C18 at `gcs|gzip|zstd|json` over `demoParser`: the unknown `zstd` is
reached after the constructors of `gcs`, `json` and `gzip`, in this order. -/
theorem C18_parseInput_call_order_witness :
    parseInput demoParser () "gcs|gzip|zstd|json" st0 =
        (.err (errorsErrorfS "invalid modifier: " "json"),
          ⟨(), [.source "gcs", .inputFormat "json", .inputModifier "gzip"]⟩) ∧
      (⟨(), [.source "gcs", .inputFormat "json", .inputModifier "gzip"]⟩ :
          St Unit CtorCall).calls =
        st0.calls ++ [.source "gcs", .inputFormat "json"] ++
          ["gzip"].map CtorCall.inputModifier :=
  (C18_parseInput_call_order demoParser () "gcs|gzip|zstd|json" st0 "gcs" ["gzip", "zstd"]
    "json" (okCtor "source gcs") "source gcs" ⟨(), [.source "gcs"]⟩ (by decide) rfl rfl rfl).2
    (okCtor "iformat json") "iformat json"
    demoInputStates ["gzip"] "zstd" [] rfl rfl rfl
    (fun i hi =>
      match i, hi with
      | 0, _ => ⟨okCtor "imod gzip", "imod gzip", rfl, rfl⟩
      | n + 1, h => absurd h (by simp))
    rfl

/-- C12: a constructor failure surfaces as a parse failure of its line. On a
non-empty line, when the constructor of the head, of the tail, or of an
interior token returns an error `e` (the constructors called before it having
succeeded), `parseInput` returns no Input and the error
`failed to create source: e`, `failed to create input format: e` or
`failed to create modifier: e`, and `parseOutput` returns no Output and the
error `failed to create output format: e`, `failed to create sink: e` or
`failed to create modifier: e`, the text of the returned error being that
role's text followed by the text of `e`; in each case the state returned is
the one the failing constructor call left, so no later constructor is
invoked. -/
theorem C12_constructor_failure_aborts {Ctx W Src IMod IFmt OFmt OMod Snk : Type}
    (p : Parser Ctx W Src IMod IFmt OFmt OMod Snk) (ctx : Ctx) (line : String)
    (st : St W CtorCall) (hne : line ≠ "") :
    (∀ (t : String) (c : Ctor Ctx W Src) (e : GoError) (s1 : St W CtorCall),
      (stringsSplit line Separator).head? = some t → p.Sources t = some c →
      callCtor (.source t) c ctx st = (.error e, s1) →
      parseInput p ctx line st = (.err (errorsErrorfV "failed to create source: " e), s1) ∧
      (errorsErrorfV "failed to create source: " e).Error = "failed to create source: " ++ e.Error) ∧
    (∀ (t u : String) (c : Ctor Ctx W Src) (s : Src) (s1 : St W CtorCall)
      (cf : Ctor Ctx W IFmt) (e : GoError) (s2 : St W CtorCall),
      (stringsSplit line Separator).head? = some t →
      (stringsSplit line Separator).getLast? = some u →
      p.Sources t = some c → callCtor (.source t) c ctx st = (.ok s, s1) →
      p.InputFormats u = some cf → callCtor (.inputFormat u) cf ctx s1 = (.error e, s2) →
      parseInput p ctx line st =
        (.err (errorsErrorfV "failed to create input format: " e), s2) ∧
      (errorsErrorfV "failed to create input format: " e).Error = "failed to create input format: " ++ e.Error) ∧
    (∀ (hd : String) (pre : List String) (tok : String) (post : List String) (tl : String)
      (c : Ctor Ctx W Src) (s : Src) (s1 : St W CtorCall) (cf : Ctor Ctx W IFmt) (f : IFmt)
      (sts : Nat → St W CtorCall) (cm : Ctor Ctx W IMod) (e : GoError) (sE : St W CtorCall),
      stringsSplit line Separator = hd :: ((pre ++ tok :: post) ++ [tl]) →
      p.Sources hd = some c → callCtor (.source hd) c ctx st = (.ok s, s1) →
      p.InputFormats tl = some cf → callCtor (.inputFormat tl) cf ctx s1 = (.ok f, sts 0) →
      (∀ (i : Nat) (hi : i < pre.length), ∃ c m,
        p.InputModifiers pre[i] = some c ∧
        callCtor (.inputModifier pre[i]) c ctx (sts i) = (.ok m, sts (i + 1))) →
      p.InputModifiers tok = some cm →
      callCtor (.inputModifier tok) cm ctx (sts pre.length) = (.error e, sE) →
      parseInput p ctx line st = (.err (errorsErrorfV "failed to create modifier: " e), sE) ∧
      (errorsErrorfV "failed to create modifier: " e).Error = "failed to create modifier: " ++ e.Error) ∧
    (∀ (t : String) (c : Ctor Ctx W OFmt) (e : GoError) (s1 : St W CtorCall),
      (stringsSplit line Separator).head? = some t → p.OutputFormats t = some c →
      callCtor (.outputFormat t) c ctx st = (.error e, s1) →
      parseOutput p ctx line st =
        (.err (errorsErrorfV "failed to create output format: " e), s1) ∧
      (errorsErrorfV "failed to create output format: " e).Error = "failed to create output format: " ++ e.Error) ∧
    (∀ (t u : String) (c : Ctor Ctx W OFmt) (f : OFmt) (s1 : St W CtorCall)
      (cs : Ctor Ctx W Snk) (e : GoError) (s2 : St W CtorCall),
      (stringsSplit line Separator).head? = some t →
      (stringsSplit line Separator).getLast? = some u →
      p.OutputFormats t = some c → callCtor (.outputFormat t) c ctx st = (.ok f, s1) →
      p.Sinks u = some cs → callCtor (.sink u) cs ctx s1 = (.error e, s2) →
      parseOutput p ctx line st = (.err (errorsErrorfV "failed to create sink: " e), s2) ∧
      (errorsErrorfV "failed to create sink: " e).Error = "failed to create sink: " ++ e.Error) ∧
    (∀ (hd : String) (pre : List String) (tok : String) (post : List String) (tl : String)
      (c : Ctor Ctx W OFmt) (f : OFmt) (s1 : St W CtorCall) (cs : Ctor Ctx W Snk) (k : Snk)
      (sts : Nat → St W CtorCall) (cm : Ctor Ctx W OMod) (e : GoError) (sE : St W CtorCall),
      stringsSplit line Separator = hd :: ((pre ++ tok :: post) ++ [tl]) →
      p.OutputFormats hd = some c → callCtor (.outputFormat hd) c ctx st = (.ok f, s1) →
      p.Sinks tl = some cs → callCtor (.sink tl) cs ctx s1 = (.ok k, sts 0) →
      (∀ (i : Nat) (hi : i < pre.length), ∃ c m,
        p.OutputModifiers pre[i] = some c ∧
        callCtor (.outputModifier pre[i]) c ctx (sts i) = (.ok m, sts (i + 1))) →
      p.OutputModifiers tok = some cm →
      callCtor (.outputModifier tok) cm ctx (sts pre.length) = (.error e, sE) →
      parseOutput p ctx line st =
        (.err (errorsErrorfV "failed to create modifier: " e), sE) ∧
      (errorsErrorfV "failed to create modifier: " e).Error = "failed to create modifier: " ++ e.Error) := by
  refine ⟨?_, ?_, ?_, ?_, ?_, ?_⟩
  · intro t c e s1 ht hS hc
    refine ⟨?_, rfl⟩
    rw [List.head?_eq_getElem?] at ht
    unfold parseInput
    simp only [hne, if_false, ht, hS, hc]
  · intro t u c s s1 cf e s2 ht hu hS hc hF hcf
    refine ⟨?_, rfl⟩
    rw [List.head?_eq_getElem?] at ht
    rw [List.getLast?_eq_getElem?] at hu
    unfold parseInput
    simp only [hne, if_false, ht, hS, hc, hu, hF, hcf]
  · intro hd pre tok post tl c s s1 cf f sts cm e sE hsplit hS hc hF hcf hpre hM hcm
    refine ⟨?_, rfl⟩
    obtain ⟨ms, -, -, hloop⟩ := parseInputLoop_pre p ctx tl pre sts hpre
    rw [parseInput_of_split p ctx line st hd _ tl hne hsplit]
    simp only [hS, hc, hF, hcf]
    rw [hloop (tok :: post) [], parseInputLoop, hM]
    simp only [hcm]
  · intro t c e s1 ht hS hc
    refine ⟨?_, rfl⟩
    rw [List.head?_eq_getElem?] at ht
    unfold parseOutput
    simp only [hne, if_false, ht, hS, hc]
  · intro t u c f s1 cs e s2 ht hu hS hc hF hcf
    refine ⟨?_, rfl⟩
    rw [List.head?_eq_getElem?] at ht
    rw [List.getLast?_eq_getElem?] at hu
    unfold parseOutput
    simp only [hne, if_false, ht, hS, hc, hu, hF, hcf]
  · intro hd pre tok post tl c f s1 cs k sts cm e sE hsplit hS hc hF hcf hpre hM hcm
    refine ⟨?_, rfl⟩
    obtain ⟨ms, -, -, hloop⟩ := parseOutputLoop_pre p ctx hd pre sts hpre
    rw [parseOutput_of_split p ctx line st hd _ tl hne hsplit]
    simp only [hS, hc, hF, hcf]
    rw [hloop (tok :: post) [], parseOutputLoop, hM]
    simp only [hcm]

/-- C12 over `faultyParser`: a failing source constructor on `bad|ok`, a
failing input modifier constructor on `ok|ok|bad|ok|ok` (the modifier after it
is not built), and a failing sink constructor on the output line `ok|bad`,
each reported under the name of its role. -/
theorem C12_constructor_failure_aborts_witness :
    (parseInput faultyParser () "bad|ok" st0 =
        (.err (.leaf "failed to create source: no source"), ⟨(), [.source "bad"]⟩) ∧
      (errorsErrorfV "failed to create source: " (.leaf "no source")).Error =
        "failed to create source: " ++ (GoError.leaf "no source").Error) ∧
    (parseInput faultyParser () "ok|ok|bad|ok|ok" st0 =
        (.err (.leaf "failed to create modifier: no imod"),
          ⟨(), [.source "ok", .inputFormat "ok", .inputModifier "ok",
            .inputModifier "bad"]⟩) ∧
      (errorsErrorfV "failed to create modifier: " (.leaf "no imod")).Error =
        "failed to create modifier: " ++ (GoError.leaf "no imod").Error) ∧
    (parseOutput faultyParser () "ok|bad" st0 =
        (.err (.leaf "failed to create sink: no sink"),
          ⟨(), [.outputFormat "ok", .sink "bad"]⟩) ∧
      (errorsErrorfV "failed to create sink: " (.leaf "no sink")).Error =
        "failed to create sink: " ++ (GoError.leaf "no sink").Error) :=
  ⟨(C12_constructor_failure_aborts faultyParser () "bad|ok" st0 (by decide)).1
      "bad" (failCtor "no source") (.leaf "no source") ⟨(), [.source "bad"]⟩
      (by decide) rfl rfl,
    (C12_constructor_failure_aborts faultyParser () "ok|ok|bad|ok|ok" st0 (by decide)).2.2.1
      "ok" ["ok"] "bad" ["ok"] "ok" (okCtor "source ok") "source ok" ⟨(), [.source "ok"]⟩
      (okCtor "iformat ok") "iformat ok" faultyInputStates (failCtor "no imod")
      (.leaf "no imod")
      ⟨(), [.source "ok", .inputFormat "ok", .inputModifier "ok", .inputModifier "bad"]⟩
      rfl rfl rfl rfl rfl
      (fun i hi =>
        match i, hi with
        | 0, _ => ⟨okCtor "imod ok", "imod ok", rfl, rfl⟩
        | n + 1, h => absurd h (by simp))
      rfl rfl,
    (C12_constructor_failure_aborts faultyParser () "ok|bad" st0 (by decide)).2.2.2.2.1
      "ok" "bad" (okCtor "oformat ok") "oformat ok" ⟨(), [.outputFormat "ok"]⟩
      (failCtor "no sink") (.leaf "no sink") ⟨(), [.outputFormat "ok", .sink "bad"]⟩
      (by decide) (by decide) rfl rfl rfl rfl⟩

/-- C16, the claim refuted: over `demoParser` the input line `tcp|foo` fails
with a grammar error (`foo` is not an input format), no constructor has
failed, and yet the source constructor of `tcp` has been invoked. -/
theorem C16_grammar_error_after_constructor :
    Parse demoParser () "tcp|foo" [] st0 =
      (.err (.leaf "failed to parse input: invalid input format: foo"),
        ⟨(), [.source "tcp"]⟩) ∧
    (demoParser.InputFormats "foo").isNone = true ∧
    (Parse demoParser () "tcp|foo" [] st0).2.calls ≠ [] := by
  decide

/-! ## Parser: every run is a plan run up to its point of failure -/

section planLemmas

variable {Ctx W Src IMod IFmt OFmt OMod Snk : Type}

/-- The modifier loop of `parseInput` leaves the state of its tokens' plan run
up to the point of failure. -/
theorem parseInputLoop_state (p : Parser Ctx W Src IMod IFmt OFmt OMod Snk) (ctx : Ctx)
    (fPart : String) (toks : List String) (mis : List IMod) (st : St W CtorCall) :
    (parseInputLoop p ctx fPart toks mis st).2 =
      runPlan p ctx (toks.map CtorCall.inputModifier) st := by
  induction toks generalizing mis st with
  | nil => simp [parseInputLoop, runPlan]
  | cons tok rest ih =>
    rw [parseInputLoop, List.map_cons, runPlan]
    simp only [ctorStep]
    cases hM : p.InputModifiers tok with
    | none => simp
    | some c =>
      simp only [Option.map_some']
      rcases hc : callCtor (.inputModifier tok) c ctx st with ⟨res, st1⟩
      cases res with
      | error e => simp [stepOutcome]
      | ok m => simp [stepOutcome, ih]

/-- Method `parseInput` leaves, however it ends, the state of the line's plan
run up to the point of failure. -/
theorem parseInput_state (p : Parser Ctx W Src IMod IFmt OFmt OMod Snk) (ctx : Ctx)
    (line : String) (st : St W CtorCall) :
    (parseInput p ctx line st).2 = runPlan p ctx (inputPlan line) st := by
  by_cases hne : line = ""
  · simp [parseInput, inputPlan, hne, runPlan]
  · rcases list_one_or_split _ (stringsSplit_ne_nil line Separator) with
      ⟨x, hx⟩ | ⟨hd, mid, tl, hs⟩
    · unfold parseInput inputPlan
      simp only [hne, if_false, hx, List.getElem?_cons_zero, List.length_singleton,
        Nat.sub_self, goSlice, List.head?_cons, List.getLast?_singleton, List.drop_one,
        List.tail_cons, List.dropLast_nil, List.map_nil, runPlan, ctorStep]
      cases hS : p.Sources x with
      | none => simp
      | some hCtor =>
        simp only [Option.map_some']
        rcases hsc : callCtor (.source x) hCtor ctx st with ⟨resS, stS⟩
        cases resS with
        | error e => simp [stepOutcome]
        | ok a =>
          simp only [stepOutcome]
          cases hF : p.InputFormats x with
          | none => simp
          | some tCtor =>
            simp only [Option.map_some']
            rcases hfc : callCtor (.inputFormat x) tCtor ctx stS with ⟨resF, stF⟩
            cases resF with
            | error e => simp
            | ok b => simp
    · have hplan : inputPlan line =
          .source hd :: .inputFormat tl :: mid.map CtorCall.inputModifier := by
        unfold inputPlan
        have hlast : (hd :: (mid ++ [tl])).getLast? = some tl := by
          rw [List.getLast?_eq_getElem?]
          exact getElem?_last_of_split hd mid tl
        simp [hne, hs, hlast]
      rw [parseInput_of_split p ctx line st hd mid tl hne hs, hplan, runPlan]
      simp only [ctorStep]
      cases hS : p.Sources hd with
      | none => simp
      | some hCtor =>
        simp only [Option.map_some']
        rcases hsc : callCtor (.source hd) hCtor ctx st with ⟨resS, stS⟩
        cases resS with
        | error e => simp [stepOutcome]
        | ok a =>
          simp only [stepOutcome, runPlan, ctorStep]
          cases hF : p.InputFormats tl with
          | none => simp
          | some tCtor =>
            simp only [Option.map_some']
            rcases hfc : callCtor (.inputFormat tl) tCtor ctx stS with ⟨resF, stF⟩
            cases resF with
            | error e => simp
            | ok b =>
              simp only []
              rw [← parseInputLoop_state p ctx tl mid [] stF]
              rcases hl : parseInputLoop p ctx tl mid [] stF with ⟨resL, stL⟩
              cases resL <;> rfl

/-- The modifier loop of `parseOutput` leaves the state of its tokens' plan run
up to the point of failure. -/
theorem parseOutputLoop_state (p : Parser Ctx W Src IMod IFmt OFmt OMod Snk) (ctx : Ctx)
    (fPart : String) (toks : List String) (mis : List OMod) (st : St W CtorCall) :
    (parseOutputLoop p ctx fPart toks mis st).2 =
      runPlan p ctx (toks.map CtorCall.outputModifier) st := by
  induction toks generalizing mis st with
  | nil => simp [parseOutputLoop, runPlan]
  | cons tok rest ih =>
    rw [parseOutputLoop, List.map_cons, runPlan]
    simp only [ctorStep]
    cases hM : p.OutputModifiers tok with
    | none => simp
    | some c =>
      simp only [Option.map_some']
      rcases hc : callCtor (.outputModifier tok) c ctx st with ⟨res, st1⟩
      cases res with
      | error e => simp [stepOutcome]
      | ok m => simp [stepOutcome, ih]

/-- Method `parseOutput` leaves, however it ends, the state of the line's plan
run up to the point of failure. -/
theorem parseOutput_state (p : Parser Ctx W Src IMod IFmt OFmt OMod Snk) (ctx : Ctx)
    (line : String) (st : St W CtorCall) :
    (parseOutput p ctx line st).2 = runPlan p ctx (outputPlan line) st := by
  by_cases hne : line = ""
  · simp [parseOutput, outputPlan, hne, runPlan]
  · rcases list_one_or_split _ (stringsSplit_ne_nil line Separator) with
      ⟨x, hx⟩ | ⟨hd, mid, tl, hs⟩
    · unfold parseOutput outputPlan
      simp only [hne, if_false, hx, List.getElem?_cons_zero, List.length_singleton,
        Nat.sub_self, goSlice, List.head?_cons, List.getLast?_singleton, List.drop_one,
        List.tail_cons, List.dropLast_nil, List.map_nil, runPlan, ctorStep]
      cases hS : p.OutputFormats x with
      | none => simp
      | some hCtor =>
        simp only [Option.map_some']
        rcases hsc : callCtor (.outputFormat x) hCtor ctx st with ⟨resS, stS⟩
        cases resS with
        | error e => simp [stepOutcome]
        | ok a =>
          simp only [stepOutcome]
          cases hF : p.Sinks x with
          | none => simp
          | some tCtor =>
            simp only [Option.map_some']
            rcases hfc : callCtor (.sink x) tCtor ctx stS with ⟨resF, stF⟩
            cases resF with
            | error e => simp
            | ok b => simp
    · have hplan : outputPlan line =
          .outputFormat hd :: .sink tl :: mid.map CtorCall.outputModifier := by
        unfold outputPlan
        have hlast : (hd :: (mid ++ [tl])).getLast? = some tl := by
          rw [List.getLast?_eq_getElem?]
          exact getElem?_last_of_split hd mid tl
        simp [hne, hs, hlast]
      rw [parseOutput_of_split p ctx line st hd mid tl hne hs, hplan, runPlan]
      simp only [ctorStep]
      cases hS : p.OutputFormats hd with
      | none => simp
      | some hCtor =>
        simp only [Option.map_some']
        rcases hsc : callCtor (.outputFormat hd) hCtor ctx st with ⟨resS, stS⟩
        cases resS with
        | error e => simp [stepOutcome]
        | ok a =>
          simp only [stepOutcome, runPlan, ctorStep]
          cases hF : p.Sinks tl with
          | none => simp
          | some tCtor =>
            simp only [Option.map_some']
            rcases hfc : callCtor (.sink tl) tCtor ctx stS with ⟨resF, stF⟩
            cases resF with
            | error e => simp
            | ok b =>
              simp only []
              rw [← parseOutputLoop_state p ctx hd mid [] stF]
              rcases hl : parseOutputLoop p ctx hd mid [] stF with ⟨resL, stL⟩
              cases resL <;> rfl

end planLemmas

section planClaims

variable {Ctx W Src IMod IFmt OFmt OMod Snk : Type}

/-- A planned call that is made adds exactly its own entry to the log. -/
theorem ctorStep_calls (p : Parser Ctx W Src IMod IFmt OFmt OMod Snk) (ctx : Ctx)
    (c : CtorCall) (st : St W CtorCall) (b : Bool) (st1 : St W CtorCall)
    (h : ctorStep p ctx c st = some (b, st1)) : st1.calls = st.calls ++ [c] := by
  cases c with
  | source n =>
    simp only [ctorStep, Option.map_eq_some'] at h
    obtain ⟨ctor, -, hc⟩ := h
    rcases hr : callCtor (.source n) ctor ctx st with ⟨res, s2⟩
    rw [hr] at hc
    have := callCtor_calls _ _ _ _ _ _ hr
    cases res <;> simp only [stepOutcome, Prod.mk.injEq] at hc <;> rw [← hc.2] <;> exact this
  | inputModifier n =>
    simp only [ctorStep, Option.map_eq_some'] at h
    obtain ⟨ctor, -, hc⟩ := h
    rcases hr : callCtor (.inputModifier n) ctor ctx st with ⟨res, s2⟩
    rw [hr] at hc
    have := callCtor_calls _ _ _ _ _ _ hr
    cases res <;> simp only [stepOutcome, Prod.mk.injEq] at hc <;> rw [← hc.2] <;> exact this
  | inputFormat n =>
    simp only [ctorStep, Option.map_eq_some'] at h
    obtain ⟨ctor, -, hc⟩ := h
    rcases hr : callCtor (.inputFormat n) ctor ctx st with ⟨res, s2⟩
    rw [hr] at hc
    have := callCtor_calls _ _ _ _ _ _ hr
    cases res <;> simp only [stepOutcome, Prod.mk.injEq] at hc <;> rw [← hc.2] <;> exact this
  | outputFormat n =>
    simp only [ctorStep, Option.map_eq_some'] at h
    obtain ⟨ctor, -, hc⟩ := h
    rcases hr : callCtor (.outputFormat n) ctor ctx st with ⟨res, s2⟩
    rw [hr] at hc
    have := callCtor_calls _ _ _ _ _ _ hr
    cases res <;> simp only [stepOutcome, Prod.mk.injEq] at hc <;> rw [← hc.2] <;> exact this
  | outputModifier n =>
    simp only [ctorStep, Option.map_eq_some'] at h
    obtain ⟨ctor, -, hc⟩ := h
    rcases hr : callCtor (.outputModifier n) ctor ctx st with ⟨res, s2⟩
    rw [hr] at hc
    have := callCtor_calls _ _ _ _ _ _ hr
    cases res <;> simp only [stepOutcome, Prod.mk.injEq] at hc <;> rw [← hc.2] <;> exact this
  | sink n =>
    simp only [ctorStep, Option.map_eq_some'] at h
    obtain ⟨ctor, -, hc⟩ := h
    rcases hr : callCtor (.sink n) ctor ctx st with ⟨res, s2⟩
    rw [hr] at hc
    have := callCtor_calls _ _ _ _ _ _ hr
    cases res <;> simp only [stepOutcome, Prod.mk.injEq] at hc <;> rw [← hc.2] <;> exact this

/-- The log of a plan run is the log it started with followed by an initial
segment of the plan. -/
theorem runPlan_calls (p : Parser Ctx W Src IMod IFmt OFmt OMod Snk) (ctx : Ctx)
    (plan : List CtorCall) (st : St W CtorCall) :
    ∃ n, n ≤ plan.length ∧ (runPlan p ctx plan st).calls = st.calls ++ plan.take n := by
  induction plan generalizing st with
  | nil => exact ⟨0, by simp, by simp [runPlan]⟩
  | cons c rest ih =>
    rw [runPlan]
    cases hstep : ctorStep p ctx c st with
    | none => exact ⟨0, by simp, by simp⟩
    | some r =>
      rcases r with ⟨b, st1⟩
      have hc := ctorStep_calls p ctx c st b st1 hstep
      cases b with
      | false => exact ⟨1, by simp, by simp [hc]⟩
      | true =>
        obtain ⟨n, hn, hcalls⟩ := ih st1
        exact ⟨n + 1, by simpa using hn, by simp [hcalls, hc]⟩

/-- C16 as amended: a failed `Parse` returns no Flow and invokes no
constructor after the point of failure, but the constructors of the tokens
before that point have been invoked, successfully, and stay invoked. When
`Parse` returns an error, either `parseInput` returned an error, or the input
line and the output lines before one line parsed and `parseOutput` returned
an error on that line; in both cases the state returned is the one reached by
running, line after line, the constructors each line asks for (head, tail,
then interior tokens left to right) up to the point of failure of the failing
line: the run stops before the first unknown token and right after the first
failing constructor. The same holds of every `parseInput` and `parseOutput`
call, and the log of such a run is an initial segment of the line's
constructor calls. On the input line, an empty line or an unknown head token
fails with no constructor invoked, while an unknown tail token fails after the
source constructor has been invoked. -/
theorem C16_failed_parse_stops_at_failure
    (p : Parser Ctx W Src IMod IFmt OFmt OMod Snk) (ctx : Ctx) (inputLine : String)
    (outputLines : List String) (st : St W CtorCall) :
    (∀ e st', Parse p ctx inputLine outputLines st = (.err e, st') →
      (∃ e0, parseInput p ctx inputLine st = (.err e0, st') ∧
        e = errorsErrorfV "failed to parse input: " e0 ∧
        st' = runPlan p ctx (inputPlan inputLine) st) ∨
      ∃ (inp : Input Src IMod IFmt) (pre : List String) (bad : String) (post : List String)
        (sts : Nat → St W CtorCall) (e0 : GoError),
        outputLines = pre ++ bad :: post ∧
        parseInput p ctx inputLine st = (.ok inp, sts 0) ∧
        sts 0 = runPlan p ctx (inputPlan inputLine) st ∧
        (∀ (i : Nat) (hi : i < pre.length),
          (∃ o, parseOutput p ctx pre[i] (sts i) = (.ok o, sts (i + 1))) ∧
          sts (i + 1) = runPlan p ctx (outputPlan pre[i]) (sts i)) ∧
        parseOutput p ctx bad (sts pre.length) = (.err e0, st') ∧
        st' = runPlan p ctx (outputPlan bad) (sts pre.length) ∧
        e = errorsErrorfV "failed to parse outputs: " e0) ∧
    (inputLine = "" →
      Parse p ctx inputLine outputLines st =
        (.err (errorsErrorfV "failed to parse input: " (errorsNew "empty input")), st)) ∧
    (inputLine ≠ "" → ∀ t : String,
      (stringsSplit inputLine Separator).head? = some t → p.Sources t = none →
      Parse p ctx inputLine outputLines st =
        (.err (errorsErrorfV "failed to parse input: " (errorsErrorfS "invalid source: " t)),
          st)) ∧
    (inputLine ≠ "" → ∀ (t u : String) (sCtor : Ctor Ctx W Src) (s : Src) (s1 : St W CtorCall),
      (stringsSplit inputLine Separator).head? = some t →
      (stringsSplit inputLine Separator).getLast? = some u →
      p.Sources t = some sCtor → callCtor (.source t) sCtor ctx st = (.ok s, s1) →
      p.InputFormats u = none →
      Parse p ctx inputLine outputLines st =
        (.err (errorsErrorfV "failed to parse input: "
          (errorsErrorfS "invalid input format: " u)), s1) ∧
      s1.calls = st.calls ++ [.source t]) ∧
    (∀ (line : String) (s : St W CtorCall),
      (parseInput p ctx line s).2 = runPlan p ctx (inputPlan line) s ∧
      (parseOutput p ctx line s).2 = runPlan p ctx (outputPlan line) s) ∧
    (∀ (plan : List CtorCall) (s : St W CtorCall),
      ∃ n, n ≤ plan.length ∧ (runPlan p ctx plan s).calls = s.calls ++ plan.take n) := by
  refine ⟨?_, ?_, ?_, ?_, ?_, ?_⟩
  · intro e st' h
    rw [Parse] at h
    rcases hin : parseInput p ctx inputLine st with ⟨res, st1⟩
    have hst1 := parseInput_state p ctx inputLine st
    rw [hin] at h hst1
    simp only [] at hst1
    cases res with
    | err e0 =>
      simp only [Prod.mk.injEq, Result.err.injEq] at h
      refine Or.inl ⟨e0, by rw [h.2], h.1.symm, ?_⟩
      rw [← h.2]; exact hst1
    | panic msg => simp at h
    | ok inp =>
      simp only [] at h
      rcases hl : parseOutputsLoop p ctx outputLines [] st1 with ⟨resL, st2⟩
      rw [hl] at h
      cases resL with
      | ok outs => simp at h
      | panic msg => simp at h
      | err e1 =>
        simp only [Prod.mk.injEq, Result.err.injEq] at h
        obtain ⟨pre, bad, post, sts, e0, hlines, h0, hstep, hbad, he⟩ :=
          parseOutputsLoop_err_inv p ctx outputLines [] st1 e1 st2 hl
        refine Or.inr ⟨inp, pre, bad, post, sts, e0, hlines, by rw [h0], by rw [h0, hst1],
          ?_, ?_, ?_, ?_⟩
        · intro i hi
          obtain ⟨o, ho⟩ := hstep i hi
          refine ⟨⟨o, ho⟩, ?_⟩
          have := parseOutput_state p ctx pre[i] (sts i)
          rw [ho] at this
          exact this
        · rw [← h.2]; exact hbad
        · have := parseOutput_state p ctx bad (sts pre.length)
          rw [hbad] at this
          rw [← h.2]; exact this
        · rw [← h.1]; exact he
  · intro h0
    simp [Parse, parseInput, h0]
  · intro hne t ht hS
    rw [List.head?_eq_getElem?] at ht
    have hin : parseInput p ctx inputLine st =
        (.err (errorsErrorfS "invalid source: " t), st) := by
      unfold parseInput
      simp only [hne, if_false, ht, hS]
    simp [Parse, hin]
  · intro hne t u sCtor s s1 ht hu hS hs hF
    rw [List.head?_eq_getElem?] at ht
    rw [List.getLast?_eq_getElem?] at hu
    have hin : parseInput p ctx inputLine st =
        (.err (errorsErrorfS "invalid input format: " u), s1) := by
      unfold parseInput
      simp only [hne, if_false, ht, hS, hs, hu, hF]
    exact ⟨by simp [Parse, hin], callCtor_calls _ _ _ _ _ _ hs⟩
  · intro line s
    exact ⟨parseInput_state p ctx line s, parseOutput_state p ctx line s⟩
  · intro plan s
    exact runPlan_calls p ctx plan s

end planClaims

/-- C16 as amended over `demoParser`: on `tcp|foo` the failure is the one of
`parseInput`, reported after the source constructor of `tcp` was invoked, the
state being the plan run of the line up to the unknown `foo`; on `foo|http`
nothing is invoked. -/
theorem C16_failed_parse_stops_at_failure_witness :
    ((∃ e0, parseInput demoParser () "tcp|foo" st0 = (.err e0, ⟨(), [.source "tcp"]⟩) ∧
        GoError.leaf "failed to parse input: invalid input format: foo" =
          errorsErrorfV "failed to parse input: " e0 ∧
        (⟨(), [.source "tcp"]⟩ : St Unit CtorCall) =
          runPlan demoParser () (inputPlan "tcp|foo") st0) ∨
      ∃ (inp : Input String String String) (pre : List String) (bad : String)
        (post : List String) (sts : Nat → St Unit CtorCall) (e0 : GoError),
        ["json|gcs"] = pre ++ bad :: post ∧
        parseInput demoParser () "tcp|foo" st0 = (.ok inp, sts 0) ∧
        sts 0 = runPlan demoParser () (inputPlan "tcp|foo") st0 ∧
        (∀ (i : Nat) (hi : i < pre.length),
          (∃ o, parseOutput demoParser () pre[i] (sts i) = (.ok o, sts (i + 1))) ∧
          sts (i + 1) = runPlan demoParser () (outputPlan pre[i]) (sts i)) ∧
        parseOutput demoParser () bad (sts pre.length) =
          (.err e0, ⟨(), [.source "tcp"]⟩) ∧
        (⟨(), [.source "tcp"]⟩ : St Unit CtorCall) =
          runPlan demoParser () (outputPlan bad) (sts pre.length) ∧
        GoError.leaf "failed to parse input: invalid input format: foo" =
          errorsErrorfV "failed to parse outputs: " e0) ∧
    (Parse demoParser () "tcp|foo" ["json|gcs"] st0 =
        (.err (errorsErrorfV "failed to parse input: "
          (errorsErrorfS "invalid input format: " "foo")), ⟨(), [.source "tcp"]⟩) ∧
      (⟨(), [.source "tcp"]⟩ : St Unit CtorCall).calls = st0.calls ++ [.source "tcp"]) ∧
    Parse demoParser () "foo|http" ["json|gcs"] st0 =
      (.err (errorsErrorfV "failed to parse input: " (errorsErrorfS "invalid source: " "foo")),
        st0) :=
  ⟨(C16_failed_parse_stops_at_failure demoParser () "tcp|foo" ["json|gcs"] st0).1
      (.leaf "failed to parse input: invalid input format: foo") ⟨(), [.source "tcp"]⟩ rfl,
    (C16_failed_parse_stops_at_failure demoParser () "tcp|foo" ["json|gcs"] st0).2.2.2.1
      (by decide) "tcp" "foo" (okCtor "source tcp") "source tcp" ⟨(), [.source "tcp"]⟩
      (by decide) (by decide) rfl rfl rfl,
    (C16_failed_parse_stops_at_failure demoParser () "foo|http" ["json|gcs"] st0).2.2.1
      (by decide) "foo" (by decide) rfl⟩

end flow
